import Mathlib

/-!
Verification of the SDF primitive binary codec in
`tools/yetty-client/core/sdf.py` (functions `parse_color`,
`pack_sdf_primitive`, `compute_aabb`, `parse_primitive`,
`parse_yaml_to_binary`).

Modelling conventions, chosen to stay faithful to the Python source:

* Python numbers (ints and floats flowing into the `params` floats) are
  modelled as exact rationals `ℚ`; packed 32-bit integer channels are
  modelled as `Int` (Python ints are unbounded until `struct.pack`
  range-checks them).
* A 96-byte `SDFPrimitive` record is modelled at 32-bit word granularity
  as a `List Word` of 24 words (`struct.pack` is little-endian and
  fixed-size; byte length is `4 *` word count).
* Functions that can raise (`ValueError` from `int(...)`, `IndexError`
  from `params[i]`, `struct.error` from out-of-range `'<I'` values or a
  field-count mismatch) are modelled in `Except Unit` / `Option`.
* `math.sin(angle * math.pi / 180)` and the matching cosine are
  transcendental, so they are taken as abstract parameters
  `sinDeg cosDeg : ℚ → ℚ` of the encoder; no claim depends on their
  values, only on where the encoder stores their results.
* Python's `int(s)` / `int(s, 16)` literal syntax is modelled by
  stripping the exact whitespace set `int(...)` strips (`isPyWs`:
  `\t`, `\n`, `\v`, `\f`, `\r`, space, NEL, NBSP and the Unicode space
  separators, as observed on CPython), then an optional sign and digits
  with single interior underscores, with an optional `0x`/`0X` prefix in
  base 16. Python's acceptance of non-ASCII Unicode decimal digits is
  not modelled, so the malformed-literal predicate used by the
  error-handling claim is restricted to ASCII literals, on which the
  model of `int(...)` is exact.
-/

/-- One 32-bit word of a packed record: either a `'<I'` unsigned-int word
or a `'<f'` float word (the float value kept exact as a rational). -/
inductive Word where
  | u : Int → Word
  | f : ℚ → Word
deriving DecidableEq

/-- Byte length of a word list: every word is 4 bytes in the `struct`
format `'<II12fIIff4fII'`. -/
def byteLength (ws : List Word) : Nat := 4 * ws.length

instance {ε α : Type} [DecidableEq ε] [DecidableEq α] : DecidableEq (Except ε α) := fun x y =>
  match x, y with
  | Except.ok a, Except.ok b =>
      if h : a = b then Decidable.isTrue (by rw [h])
      else Decidable.isFalse (by intro hc; cases hc; exact h rfl)
  | Except.error a, Except.error b =>
      if h : a = b then Decidable.isTrue (by rw [h])
      else Decidable.isFalse (by intro hc; cases hc; exact h rfl)
  | Except.ok _, Except.error _ => Decidable.isFalse (by intro hc; cases hc)
  | Except.error _, Except.ok _ => Decidable.isFalse (by intro hc; cases hc)

/-- Lift an `Option` (a Python expression that may raise) into
`Except Unit`, the model of an uncaught Python exception. -/
def ofOpt {α : Type} : Option α → Except Unit α
  | some a => Except.ok a
  | none => Except.error ()

/-- Value of an ASCII hexadecimal digit, as accepted by `int(_, 16)`. -/
def hexVal (c : Char) : Option Nat :=
  if '0' ≤ c ∧ c ≤ '9' then some (c.toNat - '0'.toNat)
  else if 'a' ≤ c ∧ c ≤ 'f' then some (c.toNat - 'a'.toNat + 10)
  else if 'A' ≤ c ∧ c ≤ 'F' then some (c.toNat - 'A'.toNat + 10)
  else none

/-- Value of an ASCII decimal digit, as accepted by `int(_)`. -/
def decVal (c : Char) : Option Nat :=
  if '0' ≤ c ∧ c ≤ '9' then some (c.toNat - '0'.toNat) else none

/-- Run of digits with optional single interior underscores, as in a
Python integer literal body: `"1_2"` is fine, `"1__2"`, `"1_"` are not.
`dv` maps a digit character to its value, `b` is the base. -/
def digitsCore (dv : Char → Option Nat) (b : Nat) : List Char → Nat → Option Nat
  | [], acc => some acc
  | c :: rest, acc =>
    if c = '_' then
      match rest with
      | [] => none
      | d :: rest2 =>
        match dv d with
        | some v => digitsCore dv b rest2 (acc * b + v)
        | none => none
    else
      match dv c with
      | some v => digitsCore dv b rest (acc * b + v)
      | none => none

/-- A nonempty digit run that may not start with an underscore. -/
def digitsRun (dv : Char → Option Nat) (b : Nat) (cs : List Char) : Option Nat :=
  match cs with
  | [] => none
  | c :: _ => if c = '_' then none else digitsCore dv b cs 0

/-- The whitespace characters Python's `int(...)` strips around a
literal (CPython: `int("\f255")` is 255, while `int("\x1c255")`
raises): `\t`, `\n`, `\v`, `\f`, `\r`, space, NEL `U+0085`, NBSP
`U+00A0`, Ogham space `U+1680`, the `U+2000`-`U+200A` spaces, line and
paragraph separators `U+2028`/`U+2029`, `U+202F`, `U+205F` and the
ideographic space `U+3000`. -/
def isPyWs (c : Char) : Bool :=
  c = '\t' || c = '\n' || c = '\x0b' || c = '\x0c' || c = '\r' || c = ' ' ||
  c = '\x85' || c = '\xa0' || c = '\u1680' ||
  c = '\u2000' || c = '\u2001' || c = '\u2002' || c = '\u2003' ||
  c = '\u2004' || c = '\u2005' || c = '\u2006' || c = '\u2007' ||
  c = '\u2008' || c = '\u2009' || c = '\u200a' ||
  c = '\u2028' || c = '\u2029' || c = '\u202f' || c = '\u205f' || c = '\u3000'

/-- Strip leading and trailing whitespace, as `int(...)` does before
reading the literal. -/
def stripWs (cs : List Char) : List Char :=
  ((cs.dropWhile isPyWs).reverse.dropWhile isPyWs).reverse

/-- Hex digit run after a `0x` prefix; Python allows one underscore
directly after the prefix (`int("0x_ff", 16)` is 255). -/
def hexAfterPrefix (cs : List Char) : Option Nat :=
  match cs with
  | '_' :: rest => digitsRun hexVal 16 rest
  | rest => digitsRun hexVal 16 rest

/-- Bodies accepted by `int(s, 16)` after sign removal: an optional
`0x`/`0X` prefix followed by hex digits, or bare hex digits. -/
def hexBody (cs : List Char) : Option Nat :=
  match cs with
  | '0' :: 'x' :: rest => hexAfterPrefix rest
  | '0' :: 'X' :: rest => hexAfterPrefix rest
  | rest => digitsRun hexVal 16 rest

/-- Split an optional leading sign off an integer-literal body,
returning whether the value is negated and the remaining characters. -/
def signSplit (cs : List Char) : Bool × List Char :=
  if cs.head? = some '+' then (false, cs.tail)
  else if cs.head? = some '-' then (true, cs.tail)
  else (false, cs)

/-- Apply the sign produced by `signSplit`. -/
def applySign (neg : Bool) (n : Nat) : Int :=
  if neg then -(n : Int) else (n : Int)

/-- Model of Python `int(s, 16)`: strip whitespace, optional sign, then a
hex body (with optional `0x` prefix). `none` models `ValueError`. -/
def pyInt16 (cs : List Char) : Option Int :=
  let sr := signSplit (stripWs cs)
  (hexBody sr.2).map (applySign sr.1)

/-- Model of Python `int(s, 16)` restricted to the at-most-two-character
slices `hex_str[i:i+2]` taken in the `'#'` branch of `parse_color` (for
such short inputs the `0x` prefix form cannot carry digits, so plain
sign + digit-run parsing agrees with Python). -/
def pyIntSlice16 (cs : List Char) : Option Int :=
  let sr := signSplit (stripWs cs)
  (digitsRun hexVal 16 sr.2).map (applySign sr.1)

/-- Model of Python `int(s)` (base 10). `none` models `ValueError`. -/
def pyInt10 (cs : List Char) : Option Int :=
  let sr := signSplit (stripWs cs)
  (digitsRun decVal 10 sr.2).map (applySign sr.1)

/-- Python slice `s[a:b]` on a character list (clamping, `a ≤ b`). -/
def pySlice (cs : List Char) (a b : Nat) : List Char := (cs.drop a).take (b - a)

/-- `color_str.startswith('#')`. -/
def startsHash (cs : List Char) : Bool := cs.head? == some '#'

/-- `color_str.startswith('0x') or color_str.startswith('0X')`. -/
def startsZeroX (cs : List Char) : Bool :=
  match cs with
  | '0' :: 'x' :: _ => true
  | '0' :: 'X' :: _ => true
  | _ => false

/-- `''.join(c + c for c in hex_str)`: duplicate every character. -/
def dupChars (cs : List Char) : List Char := cs.flatMap (fun c => [c, c])

/-- Python `<<` on an `Int` (equals multiplication by a power of two,
also for negative operands). -/
def pyShl (a : Int) (n : Nat) : Int := a * 2 ^ n

/-- The `'#'` branch of `parse_color`: expand `#RGB`/`#RGBA` shorthand by
digit duplication, default missing alpha to `FF`, then read the four
byte slices and pack `(a<<24)|(b<<16)|(g<<8)|r`. -/
def parseHashColor (hex0 : List Char) : Except Unit Int :=
  let h1 := if hex0.length = 3 then dupChars hex0 else hex0
  let h2 := if h1.length = 4 then dupChars h1 else h1
  let hx := if h2.length = 6 then h2 ++ ['F', 'F'] else h2
  match pyIntSlice16 (pySlice hx 0 2), pyIntSlice16 (pySlice hx 2 4),
        pyIntSlice16 (pySlice hx 4 6), pyIntSlice16 (pySlice hx 6 8) with
  | some r, some g, some b, some a =>
      Except.ok (Int.lor (Int.lor (Int.lor (pyShl a 24) (pyShl b 16)) (pyShl g 8)) r)
  | _, _, _, _ => Except.error ()

/-- The `0x` branch of `parse_color`: reinterpret an ARGB-packed value as
ABGR. The source shifts and masks a nonnegative `int(s, 16)` result, so
`/` and `%` (both Euclidean here) agree with Python's `>>` and `&`. -/
def argbToAbgr (val : Int) : Int :=
  let a := val / 2 ^ 24 % 256
  let r := val / 2 ^ 16 % 256
  let g := val / 2 ^ 8 % 256
  let b := val % 256
  Int.lor (Int.lor (Int.lor (pyShl a 24) (pyShl b 16)) (pyShl g 8)) r

/-- Model of `parse_color` from `core/sdf.py`: `'#'` hex literals are
packed ABGR with default alpha, `0x` literals are converted ARGB → ABGR,
and anything else goes through `int(color_str)` unchanged.
`Except.error ()` models an uncaught `ValueError`. -/
def parse_color (cs : List Char) : Except Unit Int :=
  if startsHash cs then parseHashColor cs.tail
  else if startsZeroX cs then
    match pyInt16 cs with
    | some val => Except.ok (argbToAbgr val)
    | none => Except.error ()
  else
    match pyInt10 cs with
    | some v => Except.ok v
    | none => Except.error ()

/-- `parse_color` applied to a Lean string literal. -/
def parseColorStr (s : String) : Except Unit Int := parse_color s.data

/-! ## SDF type tags (the C++ `SDFType` enum mirrored in `sdf.py`) -/

def SDF_TYPE_CIRCLE : Int := 0
def SDF_TYPE_BOX : Int := 1
def SDF_TYPE_SEGMENT : Int := 2
def SDF_TYPE_TRIANGLE : Int := 3
def SDF_TYPE_BEZIER2 : Int := 4
def SDF_TYPE_BEZIER3 : Int := 5
def SDF_TYPE_ELLIPSE : Int := 6
def SDF_TYPE_ARC : Int := 7
def SDF_TYPE_ROUNDED_BOX : Int := 8
def SDF_TYPE_RHOMBUS : Int := 9
def SDF_TYPE_PENTAGON : Int := 10
def SDF_TYPE_HEXAGON : Int := 11
def SDF_TYPE_STAR : Int := 12
def SDF_TYPE_PIE : Int := 13
def SDF_TYPE_RING : Int := 14
def SDF_TYPE_HEART : Int := 15
def SDF_TYPE_CROSS : Int := 16
def SDF_TYPE_ROUNDED_X : Int := 17
def SDF_TYPE_CAPSULE : Int := 18
def SDF_TYPE_MOON : Int := 19
def SDF_TYPE_EGG : Int := 20

/-- Model of `compute_aabb` from `core/sdf.py`. `params[i]` is modelled
by `List.get?` inside the `Option` monad, so `none` models an
`IndexError` on a too-short parameter list; every in-range computation
mirrors the source branch for the given type tag, and the final `else`
returns the sentinel unbounded box `(-1e10, -1e10, 1e10, 1e10)`. -/
def compute_aabb (prim_type : Int) (params : List ℚ) (stroke_width corner_round : ℚ) :
    Option (ℚ × ℚ × ℚ × ℚ) :=
  let expand := stroke_width * (1 / 2)
  if prim_type = SDF_TYPE_CIRCLE then do
    let p0 ← params.get? 0
    let p1 ← params.get? 1
    let p2 ← params.get? 2
    let r := p2 + expand
    pure (p0 - r, p1 - r, p0 + r, p1 + r)
  else if prim_type = SDF_TYPE_BOX then do
    let p0 ← params.get? 0
    let p1 ← params.get? 1
    let p2 ← params.get? 2
    let p3 ← params.get? 3
    let hw := p2 + corner_round + expand
    let hh := p3 + corner_round + expand
    pure (p0 - hw, p1 - hh, p0 + hw, p1 + hh)
  else if prim_type = SDF_TYPE_SEGMENT then do
    let p0 ← params.get? 0
    let p1 ← params.get? 1
    let p2 ← params.get? 2
    let p3 ← params.get? 3
    pure (min p0 p2 - expand, min p1 p3 - expand, max p0 p2 + expand, max p1 p3 + expand)
  else if prim_type = SDF_TYPE_TRIANGLE then do
    let p0 ← params.get? 0
    let p1 ← params.get? 1
    let p2 ← params.get? 2
    let p3 ← params.get? 3
    let p4 ← params.get? 4
    let p5 ← params.get? 5
    pure (min (min p0 p2) p4 - expand, min (min p1 p3) p5 - expand,
          max (max p0 p2) p4 + expand, max (max p1 p3) p5 + expand)
  else if prim_type = SDF_TYPE_BEZIER2 then do
    let p0 ← params.get? 0
    let p1 ← params.get? 1
    let p2 ← params.get? 2
    let p3 ← params.get? 3
    let p4 ← params.get? 4
    let p5 ← params.get? 5
    pure (min (min p0 p2) p4 - expand, min (min p1 p3) p5 - expand,
          max (max p0 p2) p4 + expand, max (max p1 p3) p5 + expand)
  else if prim_type = SDF_TYPE_ELLIPSE then do
    let p0 ← params.get? 0
    let p1 ← params.get? 1
    let p2 ← params.get? 2
    let p3 ← params.get? 3
    pure (p0 - p2 - expand, p1 - p3 - expand, p0 + p2 + expand, p1 + p3 + expand)
  else if prim_type = SDF_TYPE_ARC then do
    let p4 ← params.get? 4
    let p5 ← params.get? 5
    let p0 ← params.get? 0
    let p1 ← params.get? 1
    let r := max p4 p5 + expand
    pure (p0 - r, p1 - r, p0 + r, p1 + r)
  else if prim_type = SDF_TYPE_ROUNDED_BOX then do
    let maxr ← if params.length > 7 then do
        let q4 ← params.get? 4
        let q5 ← params.get? 5
        let q6 ← params.get? 6
        let q7 ← params.get? 7
        pure (max (max (max q4 q5) q6) q7)
      else pure 0
    let p0 ← params.get? 0
    let p1 ← params.get? 1
    let p2 ← params.get? 2
    let p3 ← params.get? 3
    let hw := p2 + maxr + expand
    let hh := p3 + maxr + expand
    pure (p0 - hw, p1 - hh, p0 + hw, p1 + hh)
  else if prim_type = SDF_TYPE_RHOMBUS then do
    let p0 ← params.get? 0
    let p1 ← params.get? 1
    let p2 ← params.get? 2
    let p3 ← params.get? 3
    let hw := p2 + expand
    let hh := p3 + expand
    pure (p0 - hw, p1 - hh, p0 + hw, p1 + hh)
  else if prim_type = SDF_TYPE_PENTAGON ∨ prim_type = SDF_TYPE_HEXAGON then do
    let p0 ← params.get? 0
    let p1 ← params.get? 1
    let p2 ← params.get? 2
    let r := p2 + expand
    pure (p0 - r, p1 - r, p0 + r, p1 + r)
  else if prim_type = SDF_TYPE_STAR then do
    let p0 ← params.get? 0
    let p1 ← params.get? 1
    let p2 ← params.get? 2
    let r := p2 + expand
    pure (p0 - r, p1 - r, p0 + r, p1 + r)
  else if prim_type = SDF_TYPE_PIE then do
    let p4 ← params.get? 4
    let p0 ← params.get? 0
    let p1 ← params.get? 1
    let r := p4 + expand
    pure (p0 - r, p1 - r, p0 + r, p1 + r)
  else if prim_type = SDF_TYPE_RING then do
    let p4 ← params.get? 4
    let p5 ← params.get? 5
    let p0 ← params.get? 0
    let p1 ← params.get? 1
    let r := p4 + p5 + expand
    pure (p0 - r, p1 - r, p0 + r, p1 + r)
  else if prim_type = SDF_TYPE_HEART then do
    let p2 ← params.get? 2
    let p0 ← params.get? 0
    let p1 ← params.get? 1
    let s := p2 * (3 / 2) + expand
    pure (p0 - s, p1 - s, p0 + s, p1 + s)
  else if prim_type = SDF_TYPE_CROSS then do
    let p2 ← params.get? 2
    let p3 ← params.get? 3
    let p0 ← params.get? 0
    let p1 ← params.get? 1
    let hw := max p2 p3 + expand
    pure (p0 - hw, p1 - hw, p0 + hw, p1 + hw)
  else if prim_type = SDF_TYPE_ROUNDED_X then do
    let p2 ← params.get? 2
    let p3 ← params.get? 3
    let p0 ← params.get? 0
    let p1 ← params.get? 1
    let s := p2 + p3 + expand
    pure (p0 - s, p1 - s, p0 + s, p1 + s)
  else if prim_type = SDF_TYPE_CAPSULE then do
    let p4 ← params.get? 4
    let p0 ← params.get? 0
    let p1 ← params.get? 1
    let p2 ← params.get? 2
    let p3 ← params.get? 3
    let r := p4 + expand
    pure (min p0 p2 - r, min p1 p3 - r, max p0 p2 + r, max p1 p3 + r)
  else if prim_type = SDF_TYPE_MOON then do
    let p3 ← params.get? 3
    let p4 ← params.get? 4
    let p0 ← params.get? 0
    let p1 ← params.get? 1
    let p2 ← params.get? 2
    let r := max p3 p4 + expand
    pure (p0 - r, p1 - r, p0 + r + p2, p1 + r)
  else if prim_type = SDF_TYPE_EGG then do
    let p2 ← params.get? 2
    let p3 ← params.get? 3
    let p0 ← params.get? 0
    let p1 ← params.get? 1
    let r := max p2 p3 + expand
    pure (p0 - r, p1 - r, p0 + r, p1 + r + p2)
  else
    pure (-(10 ^ 10 : ℚ), -(10 ^ 10 : ℚ), (10 ^ 10 : ℚ), (10 ^ 10 : ℚ))

/-- Range check of `struct.pack`'s `'<I'` format: Python raises
`struct.error` outside `[0, 2^32)`. -/
def okU32 (n : Int) : Bool := decide (0 ≤ n) && decide (n < 4294967296)

/-- Model of `pack_sdf_primitive` from `core/sdf.py`: pad `params` to 12
float words and pack the 24-word (96-byte) record
`'<II12fIIff4fII'`. `Except.error ()` models `struct.error`: a `'<I'`
value out of range, or more than 12 params (then the padded list is too
long and the format's field count no longer matches). -/
def pack_sdf_primitive (prim_type layer : Int) (params : List ℚ)
    (fill_color stroke_color : Int) (stroke_width corner_round : ℚ)
    (aabb : ℚ × ℚ × ℚ × ℚ) : Except Unit (List Word) :=
  let params_padded := params ++ List.replicate (12 - params.length) 0
  if params.length ≤ 12 && okU32 prim_type && okU32 layer &&
      okU32 fill_color && okU32 stroke_color then
    Except.ok ([Word.u prim_type, Word.u layer] ++ params_padded.map Word.f ++
      [Word.u fill_color, Word.u stroke_color, Word.f stroke_width, Word.f corner_round,
       Word.f aabb.1, Word.f aabb.2.1, Word.f aabb.2.2.1, Word.f aabb.2.2.2,
       Word.u 0, Word.u 0])
  else Except.error ()

/-- Decoded view of one record, following the documented word layout of
the spec (word 0 type, word 1 layer, words 2-13 params, word 14
fillColor, word 15 strokeColor, word 16 strokeWidth, word 17 round,
words 18-21 aabb, words 22-23 reserved). -/
structure DecodedRecord where
  dtype : Int
  dlayer : Int
  dparams : List ℚ
  dfill : Int
  dstroke : Int
  dstrokeWidth : ℚ
  dround : ℚ
  dminX : ℚ
  dminY : ℚ
  dmaxX : ℚ
  dmaxY : ℚ
  dres0 : Int
  dres1 : Int
deriving DecidableEq

/-- Decoder written from the spec's documented record layout (not from
the encoder): a record decodes iff it is exactly 24 words with the
documented u32/f32 word kinds at the documented offsets. -/
def decodeRecord (ws : List Word) : Option DecodedRecord :=
  match ws with
  | [Word.u t, Word.u l,
     Word.f p0, Word.f p1, Word.f p2, Word.f p3, Word.f p4, Word.f p5,
     Word.f p6, Word.f p7, Word.f p8, Word.f p9, Word.f p10, Word.f p11,
     Word.u fc, Word.u sc, Word.f sw, Word.f cr,
     Word.f a0, Word.f a1, Word.f a2, Word.f a3,
     Word.u z0, Word.u z1] =>
      some ⟨t, l, [p0, p1, p2, p3, p4, p5, p6, p7, p8, p9, p10, p11],
            fc, sc, sw, cr, a0, a1, a2, a3, z0, z1⟩
  | _ => none

/-- Word `i` of a record when it is a `'<I'` word. -/
def wordU (ws : List Word) (i : Nat) : Option Int :=
  match ws.get? i with
  | some (Word.u n) => some n
  | _ => none

/-! ## Primitive entries (`parse_primitive`'s input dictionaries)

A document entry is a YAML mapping whose first recognized key (in the
source's `if/elif` chain order) names the kind; the kind's options are
a mapping with optional keys. `Prim` models one entry: one constructor
per recognized kind, with `Option` fields for the optional keys
(`none` means the key is absent, so the source's `.get(key, default)`
applies its default), plus `unknown` for an entry none of whose keys is
a recognized kind name. Position-like values are modelled as pairs,
numbers as exact rationals, color literals as strings. -/

inductive Prim where
  | circle (position : Option (ℚ × ℚ)) (radius : Option ℚ)
      (fill : Option String) (stroke : Option String) (strokeWidth : Option ℚ)
  | box (position : Option (ℚ × ℚ)) (size : Option (ℚ × ℚ))
      (fill : Option String) (stroke : Option String) (strokeWidth : Option ℚ)
      (round : Option ℚ)
  | segment (fromPt : Option (ℚ × ℚ)) (toPt : Option (ℚ × ℚ))
      (stroke : Option String) (strokeWidth : Option ℚ)
  | triangle (p0 : Option (ℚ × ℚ)) (p1 : Option (ℚ × ℚ)) (p2 : Option (ℚ × ℚ))
      (fill : Option String) (stroke : Option String) (strokeWidth : Option ℚ)
  | ellipse (position : Option (ℚ × ℚ)) (radii : Option (ℚ × ℚ))
      (fill : Option String) (stroke : Option String) (strokeWidth : Option ℚ)
  | bezier (p0 : Option (ℚ × ℚ)) (p1 : Option (ℚ × ℚ)) (p2 : Option (ℚ × ℚ))
      (stroke : Option String) (strokeWidth : Option ℚ)
  | arc (position : Option (ℚ × ℚ)) (angle : Option ℚ) (radius : Option ℚ)
      (thickness : Option ℚ) (fill : Option String) (stroke : Option String)
      (strokeWidth : Option ℚ)
  | pentagon (position : Option (ℚ × ℚ)) (radius : Option ℚ)
      (fill : Option String) (stroke : Option String) (strokeWidth : Option ℚ)
  | hexagon (position : Option (ℚ × ℚ)) (radius : Option ℚ)
      (fill : Option String) (stroke : Option String) (strokeWidth : Option ℚ)
  | star (position : Option (ℚ × ℚ)) (radius : Option ℚ) (points : Option ℚ)
      (inner : Option ℚ) (fill : Option String) (stroke : Option String)
      (strokeWidth : Option ℚ)
  | pie (position : Option (ℚ × ℚ)) (angle : Option ℚ) (radius : Option ℚ)
      (fill : Option String) (stroke : Option String) (strokeWidth : Option ℚ)
  | ring (position : Option (ℚ × ℚ)) (angle : Option ℚ) (radius : Option ℚ)
      (thickness : Option ℚ) (fill : Option String) (stroke : Option String)
      (strokeWidth : Option ℚ)
  | heart (position : Option (ℚ × ℚ)) (scale : Option ℚ)
      (fill : Option String) (stroke : Option String) (strokeWidth : Option ℚ)
  | cross (position : Option (ℚ × ℚ)) (size : Option (ℚ × ℚ)) (round : Option ℚ)
      (fill : Option String) (stroke : Option String) (strokeWidth : Option ℚ)
  | roundedX (position : Option (ℚ × ℚ)) (width : Option ℚ) (round : Option ℚ)
      (fill : Option String) (stroke : Option String) (strokeWidth : Option ℚ)
  | capsule (fromPt : Option (ℚ × ℚ)) (toPt : Option (ℚ × ℚ)) (radius : Option ℚ)
      (fill : Option String) (stroke : Option String) (strokeWidth : Option ℚ)
  | rhombus (position : Option (ℚ × ℚ)) (size : Option (ℚ × ℚ))
      (fill : Option String) (stroke : Option String) (strokeWidth : Option ℚ)
  | moon (position : Option (ℚ × ℚ)) (distance : Option ℚ)
      (radiusOuter : Option ℚ) (radiusInner : Option ℚ)
      (fill : Option String) (stroke : Option String) (strokeWidth : Option ℚ)
  | egg (position : Option (ℚ × ℚ)) (radiusBottom : Option ℚ) (radiusTop : Option ℚ)
      (fill : Option String) (stroke : Option String) (strokeWidth : Option ℚ)
  | unknown
deriving DecidableEq

/-- `True` except for the `unknown` entry: the entry's kind name is in
the source's `if/elif` chain. -/
def recognized (p : Prim) : Bool :=
  match p with
  | Prim.unknown => false
  | _ => true

/-- `stroke_color` when the kind leaves it at its initialisation: the
source's `if 'stroke' in c: stroke_color = parse_color(c['stroke'])`
with `stroke_color = 0` otherwise. -/
def strokeOr0 (stroke : Option String) : Except Unit Int :=
  match stroke with
  | some s => parseColorStr s
  | none => Except.ok 0

/-- `stroke_color` for segment/bezier/arc, where the source's `else`
branch parses `'#ffffff'` instead of leaving 0. -/
def strokeOrWhite (stroke : Option String) : Except Unit Int :=
  match stroke with
  | some s => parseColorStr s
  | none => parseColorStr "#ffffff"

/-- The per-kind `if/elif` body of `parse_primitive`: computes
`(prim_type, params, fill_color, stroke_color, stroke_width,
corner_round)` for a recognized entry, `none` for an unrecognized one
(the source's final `else: return b''`). `sinDeg`/`cosDeg` abstract
`math.sin(x * math.pi / 180)` and `math.cos(x * math.pi / 180)`. -/
def primSetup (sinDeg cosDeg : ℚ → ℚ) (p : Prim) :
    Except Unit (Option (Int × List ℚ × Int × Int × ℚ × ℚ)) :=
  match p with
  | Prim.circle position radius fill stroke strokeWidth => do
      let pos := position.getD (0, 0)
      let fc ← parseColorStr (fill.getD "#ffffff")
      let sc ← strokeOr0 stroke
      pure (some (SDF_TYPE_CIRCLE, [pos.1, pos.2, radius.getD 10],
        fc, sc, strokeWidth.getD 0, 0))
  | Prim.box position size fill stroke strokeWidth round => do
      let pos := position.getD (0, 0)
      let sz := size.getD (20, 20)
      let fc ← parseColorStr (fill.getD "#ffffff")
      let sc ← strokeOr0 stroke
      pure (some (SDF_TYPE_BOX, [pos.1, pos.2, sz.1 / 2, sz.2 / 2],
        fc, sc, strokeWidth.getD 0, round.getD 0))
  | Prim.segment fromPt toPt stroke strokeWidth => do
      let q0 := fromPt.getD (0, 0)
      let q1 := toPt.getD (100, 100)
      let sc ← strokeOrWhite stroke
      pure (some (SDF_TYPE_SEGMENT, [q0.1, q0.2, q1.1, q1.2],
        0, sc, strokeWidth.getD 1, 0))
  | Prim.triangle p0 p1 p2 fill stroke strokeWidth => do
      let q0 := p0.getD (0, 0)
      let q1 := p1.getD (50, 100)
      let q2 := p2.getD (100, 0)
      let fc ← parseColorStr (fill.getD "#ffffff")
      let sc ← strokeOr0 stroke
      pure (some (SDF_TYPE_TRIANGLE, [q0.1, q0.2, q1.1, q1.2, q2.1, q2.2],
        fc, sc, strokeWidth.getD 0, 0))
  | Prim.ellipse position radii fill stroke strokeWidth => do
      let pos := position.getD (0, 0)
      let rs := radii.getD (20, 10)
      let fc ← parseColorStr (fill.getD "#ffffff")
      let sc ← strokeOr0 stroke
      pure (some (SDF_TYPE_ELLIPSE, [pos.1, pos.2, rs.1, rs.2],
        fc, sc, strokeWidth.getD 0, 0))
  | Prim.bezier p0 p1 p2 stroke strokeWidth => do
      let q0 := p0.getD (0, 0)
      let q1 := p1.getD (50, 50)
      let q2 := p2.getD (100, 0)
      let sc ← strokeOrWhite stroke
      pure (some (SDF_TYPE_BEZIER2, [q0.1, q0.2, q1.1, q1.2, q2.1, q2.2],
        0, sc, strokeWidth.getD 1, 0))
  | Prim.arc position angle radius thickness fill stroke strokeWidth => do
      let pos := position.getD (0, 0)
      let ang := angle.getD 90
      let ra := radius.getD 20
      let rb := thickness.getD 2
      let sc ← strokeOrWhite stroke
      let fc ← parseColorStr (fill.getD "#ffffff")
      pure (some (SDF_TYPE_ARC, [pos.1, pos.2, sinDeg ang, cosDeg ang, ra, rb],
        fc, sc, strokeWidth.getD 0, 0))
  | Prim.pentagon position radius fill stroke strokeWidth => do
      let pos := position.getD (0, 0)
      let fc ← parseColorStr (fill.getD "#ffffff")
      let sc ← strokeOr0 stroke
      pure (some (SDF_TYPE_PENTAGON, [pos.1, pos.2, radius.getD 20],
        fc, sc, strokeWidth.getD 0, 0))
  | Prim.hexagon position radius fill stroke strokeWidth => do
      let pos := position.getD (0, 0)
      let fc ← parseColorStr (fill.getD "#ffffff")
      let sc ← strokeOr0 stroke
      pure (some (SDF_TYPE_HEXAGON, [pos.1, pos.2, radius.getD 20],
        fc, sc, strokeWidth.getD 0, 0))
  | Prim.star position radius points inner fill stroke strokeWidth => do
      let pos := position.getD (0, 0)
      let fc ← parseColorStr (fill.getD "#ffffff")
      let sc ← strokeOr0 stroke
      pure (some (SDF_TYPE_STAR,
        [pos.1, pos.2, radius.getD 20, points.getD 5, inner.getD (5 / 2)],
        fc, sc, strokeWidth.getD 0, 0))
  | Prim.pie position angle radius fill stroke strokeWidth => do
      let pos := position.getD (0, 0)
      let ang := angle.getD 45
      let fc ← parseColorStr (fill.getD "#ffffff")
      let sc ← strokeOr0 stroke
      pure (some (SDF_TYPE_PIE,
        [pos.1, pos.2, sinDeg ang, cosDeg ang, radius.getD 20],
        fc, sc, strokeWidth.getD 0, 0))
  | Prim.ring position angle radius thickness fill stroke strokeWidth => do
      let pos := position.getD (0, 0)
      let ang := angle.getD 0
      let fc ← parseColorStr (fill.getD "#ffffff")
      let sc ← strokeOr0 stroke
      pure (some (SDF_TYPE_RING,
        [pos.1, pos.2, sinDeg ang, cosDeg ang, radius.getD 20, thickness.getD 4],
        fc, sc, strokeWidth.getD 0, 0))
  | Prim.heart position scale fill stroke strokeWidth => do
      let pos := position.getD (0, 0)
      let fc ← parseColorStr (fill.getD "#ff0000")
      let sc ← strokeOr0 stroke
      pure (some (SDF_TYPE_HEART, [pos.1, pos.2, scale.getD 20],
        fc, sc, strokeWidth.getD 0, 0))
  | Prim.cross position size round fill stroke strokeWidth => do
      let pos := position.getD (0, 0)
      let sz := size.getD (20, 5)
      let fc ← parseColorStr (fill.getD "#ffffff")
      let sc ← strokeOr0 stroke
      pure (some (SDF_TYPE_CROSS, [pos.1, pos.2, sz.1, sz.2, round.getD 0],
        fc, sc, strokeWidth.getD 0, 0))
  | Prim.roundedX position width round fill stroke strokeWidth => do
      let pos := position.getD (0, 0)
      let fc ← parseColorStr (fill.getD "#ffffff")
      let sc ← strokeOr0 stroke
      pure (some (SDF_TYPE_ROUNDED_X, [pos.1, pos.2, width.getD 20, round.getD 3],
        fc, sc, strokeWidth.getD 0, 0))
  | Prim.capsule fromPt toPt radius fill stroke strokeWidth => do
      let q0 := fromPt.getD (0, 0)
      let q1 := toPt.getD (100, 0)
      let fc ← parseColorStr (fill.getD "#ffffff")
      let sc ← strokeOr0 stroke
      pure (some (SDF_TYPE_CAPSULE, [q0.1, q0.2, q1.1, q1.2, radius.getD 10],
        fc, sc, strokeWidth.getD 0, 0))
  | Prim.rhombus position size fill stroke strokeWidth => do
      let pos := position.getD (0, 0)
      let sz := size.getD (20, 30)
      let fc ← parseColorStr (fill.getD "#ffffff")
      let sc ← strokeOr0 stroke
      pure (some (SDF_TYPE_RHOMBUS, [pos.1, pos.2, sz.1, sz.2],
        fc, sc, strokeWidth.getD 0, 0))
  | Prim.moon position distance radiusOuter radiusInner fill stroke strokeWidth => do
      let pos := position.getD (0, 0)
      let fc ← parseColorStr (fill.getD "#ffffff")
      let sc ← strokeOr0 stroke
      pure (some (SDF_TYPE_MOON,
        [pos.1, pos.2, distance.getD 10, radiusOuter.getD 20, radiusInner.getD 15],
        fc, sc, strokeWidth.getD 0, 0))
  | Prim.egg position radiusBottom radiusTop fill stroke strokeWidth => do
      let pos := position.getD (0, 0)
      let fc ← parseColorStr (fill.getD "#ffffff")
      let sc ← strokeOr0 stroke
      pure (some (SDF_TYPE_EGG,
        [pos.1, pos.2, radiusBottom.getD 20, radiusTop.getD 10],
        fc, sc, strokeWidth.getD 0, 0))
  | Prim.unknown => pure none

/-- Model of `parse_primitive` from `core/sdf.py`: the per-kind setup
followed by the shared tail `aabb = compute_aabb(...)`;
`return pack_sdf_primitive(...)`. `Except.ok none` models the
`return b''` of an unrecognized entry. -/
def parse_primitive (sinDeg cosDeg : ℚ → ℚ) (p : Prim) (layer : Int) :
    Except Unit (Option (List Word)) := do
  match (← primSetup sinDeg cosDeg p) with
  | none => pure none
  | some (t, params, fc, sc, sw, cr) => do
      let aabb ← ofOpt (compute_aabb t params sw cr)
      let r ← pack_sdf_primitive t layer params fc sc sw cr aabb
      pure (some r)

/-! ## Scene packer (`parse_yaml_to_binary`)

The YAML text itself is parsed by the external `yaml.safe_load_all`
(a `yaml.YAMLError` there is re-raised as `ValueError` before any of the
logic modelled here runs), so the packer is modelled on the parsed
document stream. A top-level document is a list of items, a mapping, or
some other (scalar) value; the source's initial `if not doc: continue`
is behaviorally the identity on every one of these shapes (an empty
list folds to nothing, an empty mapping has no keys to read, a falsy
scalar is skipped just like a truthy one falls through both
`isinstance` checks), so it is not modelled separately. -/

/-- `doc['flags']` may be a single string or a list of strings. -/
inductive FlagsVal where
  | str (s : String)
  | list (l : List String)
deriving DecidableEq

/-- A top-level mapping document: optional `body`, `background`, `flags`
keys (any other keys are never read by the source). -/
structure DocDict where
  body : Option (List Prim)
  background : Option String
  flags : Option FlagsVal
deriving DecidableEq

/-- One element of a top-level list document: a mapping with a `body`
list, any other mapping (treated as a primitive entry, recognized or
not), or a non-mapping element (skipped by the `isinstance` check). -/
inductive Item where
  | prim (p : Prim)
  | withBody (ps : List Prim)
  | nonDict
deriving DecidableEq

/-- A parsed top-level YAML document. -/
inductive YDoc where
  | list (items : List Item)
  | dict (d : DocDict)
  | scalar
deriving DecidableEq

/-- The packer's loop state: the accumulated `primitives` list, the
`layer` counter, and the document-level `bg_color`/`flags` values. -/
structure PackState where
  primitives : List (List Word)
  layer : Int
  bg_color : Int
  flags : Int
deriving DecidableEq

/-- One `flags |= ...` dispatch from the source's flag loop (an
unrecognized flag string changes nothing). -/
def applyFlag (fl : Int) (f : String) : Int :=
  if f = "show_bounds" then Int.lor fl 1
  else if f = "show_tiles" ∨ f = "show_grid" then Int.lor fl 2
  else if f = "show_eval_count" then Int.lor fl 4
  else fl

/-- The source's flag loop, after wrapping a bare string into a
one-element list. -/
def applyFlags (fl : Int) (v : FlagsVal) : Int :=
  match v with
  | FlagsVal.str s => applyFlag fl s
  | FlagsVal.list l => l.foldl applyFlag fl

/-- One primitive entry step of the packer:
`data = parse_primitive(prim, layer); if data: append, layer += 1`. -/
def procPrimStep (sinDeg cosDeg : ℚ → ℚ) (st : PackState) (p : Prim) :
    Except Unit PackState := do
  match (← parse_primitive sinDeg cosDeg p st.layer) with
  | some recw =>
      pure { st with primitives := st.primitives ++ [recw], layer := st.layer + 1 }
  | none => pure st

/-- One element of a top-level list document. -/
def procItem (sinDeg cosDeg : ℚ → ℚ) (st : PackState) (it : Item) :
    Except Unit PackState :=
  match it with
  | Item.nonDict => pure st
  | Item.withBody ps => ps.foldlM (procPrimStep sinDeg cosDeg) st
  | Item.prim p => procPrimStep sinDeg cosDeg st p

/-- A top-level mapping document: `body` entries first, then
`background` (through `parse_color`), then `flags`. -/
def procDocDict (sinDeg cosDeg : ℚ → ℚ) (st : PackState) (d : DocDict) :
    Except Unit PackState := do
  let st1 ← match d.body with
    | some ps => ps.foldlM (procPrimStep sinDeg cosDeg) st
    | none => pure st
  let st2 ← match d.background with
    | some s => do
        let v ← parseColorStr s
        pure { st1 with bg_color := v }
    | none => pure st1
  pure (match d.flags with
    | some v => { st2 with flags := applyFlags st2.flags v }
    | none => st2)

/-- One top-level document. A document that is neither a list nor a
mapping falls through both `isinstance` checks and contributes
nothing. -/
def procDoc (sinDeg cosDeg : ℚ → ℚ) (st : PackState) (doc : YDoc) :
    Except Unit PackState :=
  match doc with
  | YDoc.list items => items.foldlM (procItem sinDeg cosDeg) st
  | YDoc.dict d => procDocDict sinDeg cosDeg st d
  | YDoc.scalar => pure st

/-- `struct.pack('<IIII', 1, len(primitives), bg_color, flags)`:
a 16-byte header, with the same `'<I'` range checks as the records. -/
def packHeader (primCount bg_color flags : Int) : Except Unit (List Word) :=
  if okU32 1 && okU32 primCount && okU32 bg_color && okU32 flags then
    Except.ok [Word.u 1, Word.u primCount, Word.u bg_color, Word.u flags]
  else Except.error ()

/-- The packer's initial state: `primitives = []`, `layer = 0`,
`bg_color = 0xFF2E1A1A`, `flags = 0`. -/
def initPackState : PackState := ⟨[], 0, 0xFF2E1A1A, 0⟩

/-- Model of `parse_yaml_to_binary` from `core/sdf.py`, applied to the
already-parsed document stream: walk the documents, then emit
`header + b''.join(primitives)` and return it with `bg_color` and
`flags`. -/
def parse_yaml_to_binary (sinDeg cosDeg : ℚ → ℚ) (docs : List YDoc) :
    Except Unit (List Word × Int × Int) := do
  let st ← docs.foldlM (procDoc sinDeg cosDeg) initPackState
  let header ← packHeader (st.primitives.length : Int) st.bg_color st.flags
  pure (header ++ st.primitives.flatten, st.bg_color, st.flags)

/-- The primitive entries an item feeds to `parse_primitive`, in order. -/
def entriesOfItem : Item → List Prim
  | Item.nonDict => []
  | Item.prim p => [p]
  | Item.withBody ps => ps

/-- The primitive entries a document feeds to `parse_primitive`. -/
def entriesOfDoc : YDoc → List Prim
  | YDoc.list its => its.flatMap entriesOfItem
  | YDoc.dict d => d.body.getD []
  | YDoc.scalar => []

/-- All primitive entries of a document stream, in walk order. -/
def entriesOf (docs : List YDoc) : List Prim := docs.flatMap entriesOfDoc

/-- The `background` literals a document stream reads. -/
def backgroundsOf (docs : List YDoc) : List String :=
  docs.flatMap (fun doc =>
    match doc with
    | YDoc.dict d => d.background.toList
    | _ => [])

/-- Number of recognized entries in a list. -/
def countRec (ps : List Prim) : Nat := (ps.filter recognized).length

/-! ## Color codec theorems -/

/-- A character with a hex value is not any character without one. -/
theorem hexVal_ne {c : Char} {v : Nat} (h : hexVal c = some v) {d : Char}
    (hd : hexVal d = none) : c ≠ d := by
  intro he; rw [he, hd] at h; cases h

/-- Hex digits are not characters that `int(...)` strips. -/
theorem hexVal_not_ws {c : Char} {v : Nat} (h : hexVal c = some v) :
    isPyWs c = false := by
  have h1 : c ≠ '\t' := hexVal_ne h (by decide)
  have h2 : c ≠ '\n' := hexVal_ne h (by decide)
  have h3 : c ≠ '\x0b' := hexVal_ne h (by decide)
  have h4 : c ≠ '\x0c' := hexVal_ne h (by decide)
  have h5 : c ≠ '\r' := hexVal_ne h (by decide)
  have h6 : c ≠ ' ' := hexVal_ne h (by decide)
  have h7 : c ≠ '\x85' := hexVal_ne h (by decide)
  have h8 : c ≠ '\xa0' := hexVal_ne h (by decide)
  have h9 : c ≠ '\u1680' := hexVal_ne h (by decide)
  have h10 : c ≠ '\u2000' := hexVal_ne h (by decide)
  have h11 : c ≠ '\u2001' := hexVal_ne h (by decide)
  have h12 : c ≠ '\u2002' := hexVal_ne h (by decide)
  have h13 : c ≠ '\u2003' := hexVal_ne h (by decide)
  have h14 : c ≠ '\u2004' := hexVal_ne h (by decide)
  have h15 : c ≠ '\u2005' := hexVal_ne h (by decide)
  have h16 : c ≠ '\u2006' := hexVal_ne h (by decide)
  have h17 : c ≠ '\u2007' := hexVal_ne h (by decide)
  have h18 : c ≠ '\u2008' := hexVal_ne h (by decide)
  have h19 : c ≠ '\u2009' := hexVal_ne h (by decide)
  have h20 : c ≠ '\u200a' := hexVal_ne h (by decide)
  have h21 : c ≠ '\u2028' := hexVal_ne h (by decide)
  have h22 : c ≠ '\u2029' := hexVal_ne h (by decide)
  have h23 : c ≠ '\u202f' := hexVal_ne h (by decide)
  have h24 : c ≠ '\u205f' := hexVal_ne h (by decide)
  have h25 : c ≠ '\u3000' := hexVal_ne h (by decide)
  simp [isPyWs, h1, h2, h3, h4, h5, h6, h7, h8, h9, h10, h11, h12, h13, h14, h15, h16, h17, h18, h19, h20, h21, h22, h23, h24, h25]

/-- Stripping whitespace from a two-character non-whitespace slice is
the identity. -/
theorem stripWs_pair {c d : Char} (hc : isPyWs c = false)
    (hd : isPyWs d = false) : stripWs [c, d] = [c, d] := by
  simp [stripWs, hc, hd]

/-- A two-hex-digit run parses to its place value. -/
theorem digitsRun_pair {c d : Char} {v w : Nat} (hc : hexVal c = some v)
    (hd : hexVal d = some w) : digitsRun hexVal 16 [c, d] = some (v * 16 + w) := by
  have hcu : c ≠ '_' := hexVal_ne hc (by decide)
  have hdu : d ≠ '_' := hexVal_ne hd (by decide)
  simp [digitsRun, digitsCore, hcu, hdu, hc, hd]

/-- `int(s, 16)` on a two-hex-digit slice. -/
theorem pyIntSlice16_pair {c d : Char} {v w : Nat} (hc : hexVal c = some v)
    (hd : hexVal d = some w) :
    pyIntSlice16 [c, d] = some ((v * 16 + w : Nat) : Int) := by
  have hp : c ≠ '+' := hexVal_ne hc (by decide)
  have hm : c ≠ '-' := hexVal_ne hc (by decide)
  rw [pyIntSlice16, stripWs_pair (hexVal_not_ws hc) (hexVal_not_ws hd)]
  simp [signSplit, hp, hm, digitsRun_pair hc hd, applySign]

/-- The `'#'` branch on six hex digits: no shorthand expansion fires,
alpha defaults to `FF`, and the channels pack ABGR. -/
theorem parseHashColor_six {c1 c2 c3 c4 c5 c6 : Char} {v1 v2 v3 v4 v5 v6 : Nat}
    (h1 : hexVal c1 = some v1) (h2 : hexVal c2 = some v2)
    (h3 : hexVal c3 = some v3) (h4 : hexVal c4 = some v4)
    (h5 : hexVal c5 = some v5) (h6 : hexVal c6 = some v6) :
    parseHashColor [c1, c2, c3, c4, c5, c6] =
      Except.ok (Int.lor (Int.lor (Int.lor (pyShl 255 24)
        (pyShl ((v5 * 16 + v6 : Nat) : Int) 16))
        (pyShl ((v3 * 16 + v4 : Nat) : Int) 8))
        ((v1 * 16 + v2 : Nat) : Int)) := by
  have eFF : pyIntSlice16 ['F', 'F'] = some 255 := by decide
  simp [parseHashColor, pySlice, pyIntSlice16_pair h1 h2, pyIntSlice16_pair h3 h4,
    pyIntSlice16_pair h5 h6, eFF]

/-- Claim C4: for every `#RRGGBB` literal of six hex digits,
`parse_color` returns `(0xFF << 24) | (B << 16) | (G << 8) | R` — ABGR
word order with the missing alpha defaulting to fully opaque, where `R`,
`G`, `B` are the two-digit channel values in `#`-literal order. -/
theorem color_rrggbb_abgr (c1 c2 c3 c4 c5 c6 : Char) (v1 v2 v3 v4 v5 v6 : Nat)
    (h1 : hexVal c1 = some v1) (h2 : hexVal c2 = some v2)
    (h3 : hexVal c3 = some v3) (h4 : hexVal c4 = some v4)
    (h5 : hexVal c5 = some v5) (h6 : hexVal c6 = some v6) :
    parse_color ['#', c1, c2, c3, c4, c5, c6] =
      Except.ok (Int.lor (Int.lor (Int.lor (pyShl 255 24)
        (pyShl ((v5 * 16 + v6 : Nat) : Int) 16))
        (pyShl ((v3 * 16 + v4 : Nat) : Int) 8))
        ((v1 * 16 + v2 : Nat) : Int)) := by
  rw [parse_color]
  simp [startsHash]
  exact parseHashColor_six h1 h2 h3 h4 h5 h6

/-- Witness for C4 at the spec's concrete scenario:
`parse_color("#112233") = 0xFF332211`. -/
theorem color_rrggbb_abgr_witness :
    parse_color ['#', '1', '1', '2', '2', '3', '3'] = Except.ok 4281541137 :=
  (color_rrggbb_abgr '1' '1' '2' '2' '3' '3' 1 1 2 2 3 3 (by decide) (by decide)
    (by decide) (by decide) (by decide) (by decide)).trans (by decide)

/-- Claim C9: a three-hex-digit shorthand `#rgb` parses exactly like the
six-digit form with every digit duplicated — for all characters, hex or
not (both sides fail together on non-hex input). -/
theorem color_shorthand_expand (r g b : Char) :
    parse_color ['#', r, g, b] = parse_color ['#', r, r, g, g, b, b] := by
  simp [parse_color, startsHash, parseHashColor, dupChars]

/-! ## AABB deriver theorems -/

/-- Claim C6: `compute_aabb` is total over type tags — every tag outside
the declared kind set 0..20 falls through the whole `elif` chain to the
sentinel unbounded box `(-1e10, -1e10, 1e10, 1e10)`, for every parameter
list (no index is ever read on that path), so unknown kinds degrade to
always-visible. -/
theorem aabb_unknown_sentinel (t : Int) (h : t < 0 ∨ 20 < t) (params : List ℚ)
    (sw cr : ℚ) :
    compute_aabb t params sw cr =
      some (-(10 ^ 10 : ℚ), -(10 ^ 10 : ℚ), (10 ^ 10 : ℚ), (10 ^ 10 : ℚ)) := by
  rw [compute_aabb]
  simp [SDF_TYPE_CIRCLE, SDF_TYPE_BOX, SDF_TYPE_SEGMENT, SDF_TYPE_TRIANGLE,
    SDF_TYPE_BEZIER2, SDF_TYPE_ELLIPSE, SDF_TYPE_ARC, SDF_TYPE_ROUNDED_BOX,
    SDF_TYPE_RHOMBUS, SDF_TYPE_PENTAGON, SDF_TYPE_HEXAGON, SDF_TYPE_STAR,
    SDF_TYPE_PIE, SDF_TYPE_RING, SDF_TYPE_HEART, SDF_TYPE_CROSS,
    SDF_TYPE_ROUNDED_X, SDF_TYPE_CAPSULE, SDF_TYPE_MOON, SDF_TYPE_EGG,
    show t ≠ 0 by omega, show t ≠ 1 by omega, show t ≠ 2 by omega,
    show t ≠ 3 by omega, show t ≠ 4 by omega, show t ≠ 6 by omega,
    show t ≠ 7 by omega, show t ≠ 8 by omega, show t ≠ 9 by omega,
    show t ≠ 10 by omega, show t ≠ 11 by omega, show t ≠ 12 by omega,
    show t ≠ 13 by omega, show t ≠ 14 by omega, show t ≠ 15 by omega,
    show t ≠ 16 by omega, show t ≠ 17 by omega, show t ≠ 18 by omega,
    show t ≠ 19 by omega, show t ≠ 20 by omega]

/-- Witness for C6 at the concrete out-of-set tag 21 with an arbitrary
short parameter list. -/
theorem aabb_unknown_sentinel_witness :
    ((21 : Int) < 0 ∨ (20 : Int) < 21) ∧
      compute_aabb 21 [1, 2, 3] 4 5 =
        some (-(10 ^ 10 : ℚ), -(10 ^ 10 : ℚ), (10 ^ 10 : ℚ), (10 ^ 10 : ℚ)) :=
  ⟨by decide, aabb_unknown_sentinel 21 (by decide) [1, 2, 3] 4 5⟩

/-- Claim C5 (amended): the pie and ring bounding boxes follow the
spec's `center ± (radius + thickness-or-zero + expand)` rule, but the
arc bounding box uses `center ± (max(radius, thickness) + expand)` —
the source takes the max of the two radii rather than their sum. -/
theorem arcPieRing_aabb (params : List ℚ) (sw cr : ℚ) (p0 p1 p4 p5 : ℚ)
    (h0 : params.get? 0 = some p0) (h1 : params.get? 1 = some p1)
    (h4 : params.get? 4 = some p4) (h5 : params.get? 5 = some p5) :
    compute_aabb SDF_TYPE_ARC params sw cr =
      some (p0 - (max p4 p5 + sw * (1 / 2)), p1 - (max p4 p5 + sw * (1 / 2)),
            p0 + (max p4 p5 + sw * (1 / 2)), p1 + (max p4 p5 + sw * (1 / 2))) ∧
    compute_aabb SDF_TYPE_PIE params sw cr =
      some (p0 - (p4 + sw * (1 / 2)), p1 - (p4 + sw * (1 / 2)),
            p0 + (p4 + sw * (1 / 2)), p1 + (p4 + sw * (1 / 2))) ∧
    compute_aabb SDF_TYPE_RING params sw cr =
      some (p0 - (p4 + p5 + sw * (1 / 2)), p1 - (p4 + p5 + sw * (1 / 2)),
            p0 + (p4 + p5 + sw * (1 / 2)), p1 + (p4 + p5 + sw * (1 / 2))) := by
  simp only [List.get?_eq_getElem?] at h0 h1 h4 h5
  refine ⟨?_, ?_, ?_⟩ <;>
    simp [compute_aabb, SDF_TYPE_CIRCLE, SDF_TYPE_BOX, SDF_TYPE_SEGMENT,
      SDF_TYPE_TRIANGLE, SDF_TYPE_BEZIER2, SDF_TYPE_ELLIPSE, SDF_TYPE_ARC,
      SDF_TYPE_ROUNDED_BOX, SDF_TYPE_RHOMBUS, SDF_TYPE_PENTAGON, SDF_TYPE_HEXAGON,
      SDF_TYPE_STAR, SDF_TYPE_PIE, SDF_TYPE_RING, h0, h1, h4, h5]

/-- Witness for the amended C5 at the concrete parameter list
`[1, 2, 0, 1, 20, 2]` with stroke width 4. -/
theorem arcPieRing_aabb_witness :
    ([(1 : ℚ), 2, 0, 1, 20, 2].get? 0 = some 1 ∧
     [(1 : ℚ), 2, 0, 1, 20, 2].get? 1 = some 2 ∧
     [(1 : ℚ), 2, 0, 1, 20, 2].get? 4 = some 20 ∧
     [(1 : ℚ), 2, 0, 1, 20, 2].get? 5 = some 2) ∧
    compute_aabb SDF_TYPE_ARC [1, 2, 0, 1, 20, 2] 4 0 =
      some (1 - (max 20 2 + 4 * (1 / 2)), 2 - (max 20 2 + 4 * (1 / 2)),
            1 + (max 20 2 + 4 * (1 / 2)), 2 + (max 20 2 + 4 * (1 / 2))) ∧
    compute_aabb SDF_TYPE_PIE [1, 2, 0, 1, 20, 2] 4 0 =
      some (1 - (20 + 4 * (1 / 2)), 2 - (20 + 4 * (1 / 2)),
            1 + (20 + 4 * (1 / 2)), 2 + (20 + 4 * (1 / 2))) ∧
    compute_aabb SDF_TYPE_RING [1, 2, 0, 1, 20, 2] 4 0 =
      some (1 - (20 + 2 + 4 * (1 / 2)), 2 - (20 + 2 + 4 * (1 / 2)),
            1 + (20 + 2 + 4 * (1 / 2)), 2 + (20 + 2 + 4 * (1 / 2))) :=
  ⟨⟨rfl, rfl, rfl, rfl⟩, arcPieRing_aabb [1, 2, 0, 1, 20, 2] 4 0 1 2 20 2 rfl rfl rfl rfl⟩

/-- Counterexample to claim C5 as stated: for an arc with center
`(0, 0)`, outer radius 20, thickness 2 and stroke width 0, the source
does not return `center ± (outer radius + thickness + expand)`
(it returns the max-based box `(-20, -20, 20, 20)`, not
`(-22, -22, 22, 22)`). -/
theorem arc_aabb_spec_counterexample :
    compute_aabb SDF_TYPE_ARC [0, 0, 0, 1, 20, 2] 0 0 ≠
      some ((0 : ℚ) - (20 + 2 + 0 * (1 / 2)), (0 : ℚ) - (20 + 2 + 0 * (1 / 2)),
            (0 : ℚ) + (20 + 2 + 0 * (1 / 2)), (0 : ℚ) + (20 + 2 + 0 * (1 / 2))) := by
  have hmax : (20 : ℚ) ⊔ 2 = 20 := max_eq_left (by norm_num)
  simp [compute_aabb, SDF_TYPE_CIRCLE, SDF_TYPE_BOX, SDF_TYPE_SEGMENT,
    SDF_TYPE_TRIANGLE, SDF_TYPE_BEZIER2, SDF_TYPE_ELLIPSE, SDF_TYPE_ARC, hmax]

/-! ## Generic facts about the `Except`-modelled control flow -/

theorem except_bind_ok {ε α β : Type} (a : α) (f : α → Except ε β) :
    (Except.ok a >>= f) = f a := rfl

theorem except_bind_err {ε α β : Type} (e : ε) (f : α → Except ε β) :
    ((Except.error e : Except ε α) >>= f) = Except.error e := rfl

theorem except_pure {ε α : Type} (a : α) : (pure a : Except ε α) = Except.ok a := rfl

theorem except_bind_eq_ok {ε α β : Type} {x : Except ε α} {f : α → Except ε β} {b : β} :
    (x >>= f) = Except.ok b ↔ ∃ a, x = Except.ok a ∧ f a = Except.ok b := by
  cases x with
  | ok a => simp [except_bind_ok]
  | error e => simp [except_bind_err]

/-! ## Record shape lemmas -/

/-- Destructure a 12-element list. -/
theorem list_len12 {α : Type} (l : List α) (h : l.length = 12) :
    ∃ a0 a1 a2 a3 a4 a5 a6 a7 a8 a9 a10 a11,
      l = [a0, a1, a2, a3, a4, a5, a6, a7, a8, a9, a10, a11] := by
  obtain ⟨a0, l, rfl⟩ := List.exists_of_length_succ l h
  simp only [List.length_cons, Nat.succ_inj] at h
  obtain ⟨a1, l, rfl⟩ := List.exists_of_length_succ l h
  simp only [List.length_cons, Nat.succ_inj] at h
  obtain ⟨a2, l, rfl⟩ := List.exists_of_length_succ l h
  simp only [List.length_cons, Nat.succ_inj] at h
  obtain ⟨a3, l, rfl⟩ := List.exists_of_length_succ l h
  simp only [List.length_cons, Nat.succ_inj] at h
  obtain ⟨a4, l, rfl⟩ := List.exists_of_length_succ l h
  simp only [List.length_cons, Nat.succ_inj] at h
  obtain ⟨a5, l, rfl⟩ := List.exists_of_length_succ l h
  simp only [List.length_cons, Nat.succ_inj] at h
  obtain ⟨a6, l, rfl⟩ := List.exists_of_length_succ l h
  simp only [List.length_cons, Nat.succ_inj] at h
  obtain ⟨a7, l, rfl⟩ := List.exists_of_length_succ l h
  simp only [List.length_cons, Nat.succ_inj] at h
  obtain ⟨a8, l, rfl⟩ := List.exists_of_length_succ l h
  simp only [List.length_cons, Nat.succ_inj] at h
  obtain ⟨a9, l, rfl⟩ := List.exists_of_length_succ l h
  simp only [List.length_cons, Nat.succ_inj] at h
  obtain ⟨a10, l, rfl⟩ := List.exists_of_length_succ l h
  simp only [List.length_cons, Nat.succ_inj] at h
  obtain ⟨a11, l, rfl⟩ := List.exists_of_length_succ l h
  simp only [List.length_cons, Nat.succ_inj, List.length_eq_zero] at h
  subst h
  exact ⟨a0, a1, a2, a3, a4, a5, a6, a7, a8, a9, a10, a11, rfl⟩

/-- Padding a ≤12-element parameter list yields exactly 12 words. -/
theorem padded_length {params : List ℚ} (h : params.length ≤ 12) :
    (params ++ List.replicate (12 - params.length) (0 : ℚ)).length = 12 := by
  simp [List.length_append, List.length_replicate]
  omega

/-- A successful `pack_sdf_primitive` implies all `'<I'` range checks
passed and fixes the record's exact word list. -/
theorem pack_ok_parts {t l : Int} {params : List ℚ} {fc sc : Int} {sw cr : ℚ}
    {aabb : ℚ × ℚ × ℚ × ℚ} {rec : List Word}
    (h : pack_sdf_primitive t l params fc sc sw cr aabb = Except.ok rec) :
    params.length ≤ 12 ∧ okU32 t = true ∧ okU32 l = true ∧ okU32 fc = true ∧
      okU32 sc = true ∧
      rec = [Word.u t, Word.u l] ++
        (params ++ List.replicate (12 - params.length) 0).map Word.f ++
        [Word.u fc, Word.u sc, Word.f sw, Word.f cr,
         Word.f aabb.1, Word.f aabb.2.1, Word.f aabb.2.2.1, Word.f aabb.2.2.2,
         Word.u 0, Word.u 0] := by
  rw [pack_sdf_primitive] at h
  split at h
  · next hcond =>
      simp only [Bool.and_eq_true, decide_eq_true_eq] at hcond
      obtain ⟨⟨⟨⟨h12, ht⟩, hl⟩, hfc⟩, hsc⟩ := hcond
      cases h
      exact ⟨by simpa using h12, ht, hl, hfc, hsc, rfl⟩
  · cases h

/-- Every successfully packed record is 24 words (96 bytes). -/
theorem pack_rec_length {t l : Int} {params : List ℚ} {fc sc : Int} {sw cr : ℚ}
    {aabb : ℚ × ℚ × ℚ × ℚ} {rec : List Word}
    (h : pack_sdf_primitive t l params fc sc sw cr aabb = Except.ok rec) :
    rec.length = 24 := by
  obtain ⟨h12, _, _, _, _, hrec⟩ := pack_ok_parts h
  subst hrec
  simp [List.length_append]
  omega

/-- Word 1 of a packed record is the layer argument. -/
theorem pack_rec_layer {t l : Int} {params : List ℚ} {fc sc : Int} {sw cr : ℚ}
    {aabb : ℚ × ℚ × ℚ × ℚ} {rec : List Word}
    (h : pack_sdf_primitive t l params fc sc sw cr aabb = Except.ok rec) :
    wordU rec 1 = some l := by
  obtain ⟨_, _, _, _, _, hrec⟩ := pack_ok_parts h
  subst hrec
  rfl

/-- Decoding a packed record by the documented layout recovers every
value handed to the encoder, zero padding and zero reserved words. -/
theorem decode_pack {t l : Int} {params : List ℚ} {fc sc : Int} {sw cr : ℚ}
    {aabb : ℚ × ℚ × ℚ × ℚ} {rec : List Word}
    (h : pack_sdf_primitive t l params fc sc sw cr aabb = Except.ok rec) :
    decodeRecord rec =
      some ⟨t, l, params ++ List.replicate (12 - params.length) 0, fc, sc, sw, cr,
            aabb.1, aabb.2.1, aabb.2.2.1, aabb.2.2.2, 0, 0⟩ := by
  obtain ⟨h12, _, _, _, _, hrec⟩ := pack_ok_parts h
  obtain ⟨a0, a1, a2, a3, a4, a5, a6, a7, a8, a9, a10, a11, hp⟩ :=
    list_len12 _ (padded_length h12)
  rw [hp] at hrec
  subst hrec
  rw [hp]
  rfl

/-! ## Shape of `parse_primitive` results -/

/-- The setup phase returns the unrecognized marker exactly for the
`unknown` entry. -/
theorem setup_none_iff (sd cd : ℚ → ℚ) (p : Prim) :
    primSetup sd cd p = Except.ok none ↔ p = Prim.unknown := by
  constructor
  · intro h
    cases p <;> try rfl
    all_goals simp [primSetup, except_bind_eq_ok, except_pure] at h
  · intro h
    subst h
    rfl

/-- A record-producing run of `parse_primitive` factors through setup,
AABB computation and packing. -/
theorem parse_ok_some_elim {sd cd : ℚ → ℚ} {p : Prim} {l : Int} {rec : List Word}
    (h : parse_primitive sd cd p l = Except.ok (some rec)) :
    ∃ t params fc sc sw cr box,
      primSetup sd cd p = Except.ok (some (t, params, fc, sc, sw, cr)) ∧
      compute_aabb t params sw cr = some box ∧
      pack_sdf_primitive t l params fc sc sw cr box = Except.ok rec := by
  rw [parse_primitive] at h
  cases hs : primSetup sd cd p with
  | error e => rw [hs, except_bind_err] at h; cases h
  | ok v =>
    rw [hs, except_bind_ok] at h
    cases v with
    | none => simp [except_pure] at h
    | some tup =>
      obtain ⟨t, params, fc, sc, sw, cr⟩ := tup
      dsimp only at h
      cases hab : compute_aabb t params sw cr with
      | none => rw [hab] at h; simp [ofOpt, except_bind_err] at h
      | some box =>
        rw [hab] at h
        simp only [ofOpt, except_bind_ok] at h
        cases hp : pack_sdf_primitive t l params fc sc sw cr box with
        | error e => rw [hp, except_bind_err] at h; cases h
        | ok r =>
          rw [hp, except_bind_ok] at h
          simp only [except_pure, Except.ok.injEq, Option.some.injEq] at h
          subst h
          exact ⟨t, params, fc, sc, sw, cr, box, rfl, hab, hp⟩

/-- An empty (`b''`) result comes only from the unrecognized entry. -/
theorem parse_ok_none_elim {sd cd : ℚ → ℚ} {p : Prim} {l : Int}
    (h : parse_primitive sd cd p l = Except.ok none) : p = Prim.unknown := by
  rw [parse_primitive] at h
  cases hs : primSetup sd cd p with
  | error e => rw [hs, except_bind_err] at h; cases h
  | ok v =>
    rw [hs, except_bind_ok] at h
    cases v with
    | none => exact (setup_none_iff sd cd p).mp hs
    | some tup =>
      obtain ⟨t, params, fc, sc, sw, cr⟩ := tup
      dsimp only at h
      cases hab : compute_aabb t params sw cr with
      | none => rw [hab] at h; simp [ofOpt, except_bind_err] at h
      | some box =>
        rw [hab] at h
        simp only [ofOpt, except_bind_ok] at h
        cases hp : pack_sdf_primitive t l params fc sc sw cr box with
        | error e => rw [hp, except_bind_err] at h; cases h
        | ok r => rw [hp, except_bind_ok] at h; simp [except_pure] at h

/-- The record emitted for a default circle entry at layer 5, used by
several witnesses. -/
def recCircleDefault : List Word :=
  [Word.u 0, Word.u 5, Word.f 0, Word.f 0, Word.f 10] ++
  List.replicate 9 (Word.f 0) ++
  [Word.u 4294967295, Word.u 0, Word.f 0, Word.f 0, Word.f (-10), Word.f (-10),
   Word.f 10, Word.f 10, Word.u 0, Word.u 0]

/-- Concrete evaluation: a default circle entry at layer 5 encodes to
`recCircleDefault`. -/
theorem circle_default_eval :
    parse_primitive (fun _ => 0) (fun _ => 0) (Prim.circle none none none none none) 5 =
      Except.ok (some recCircleDefault) := by
  have hsetup : primSetup (fun _ => (0 : ℚ)) (fun _ => (0 : ℚ))
      (Prim.circle none none none none none) =
      Except.ok (some (SDF_TYPE_CIRCLE, [0, 0, 10], 4294967295, 0, 0, 0)) := by
    simp [primSetup, strokeOr0, except_bind_ok, except_pure,
      show parseColorStr "#ffffff" = Except.ok 4294967295 from by decide]
  have haabb : compute_aabb SDF_TYPE_CIRCLE [0, 0, 10] 0 0 = some (-10, -10, 10, 10) := by
    simp [compute_aabb, SDF_TYPE_CIRCLE]
  have hpack : pack_sdf_primitive SDF_TYPE_CIRCLE 5 [0, 0, 10] 4294967295 0 0 0
      (-10, -10, 10, 10) = Except.ok recCircleDefault := by
    simp [pack_sdf_primitive, okU32, SDF_TYPE_CIRCLE, List.replicate, recCircleDefault]
  rw [parse_primitive, hsetup, except_bind_ok]
  dsimp only
  rw [haabb]
  simp [ofOpt, except_bind_ok, except_pure, hpack]

/-- Claim C10: whenever `parse_primitive` returns, the result is either
the empty byte string (and then the entry's kind was unrecognized) or a
record of exactly 24 words = 96 bytes — the params list of every
recognized kind fits the 12 slots, so the `struct.pack` failure branch
for oversized params is unreachable. -/
theorem record_size_total (sd cd : ℚ → ℚ) (p : Prim) (l : Int)
    (res : Option (List Word)) (h : parse_primitive sd cd p l = Except.ok res) :
    (res = none ∧ recognized p = false) ∨
    ∃ rec, res = some rec ∧ rec.length = 24 ∧ byteLength rec = 96 := by
  cases res with
  | none =>
    left
    refine ⟨rfl, ?_⟩
    rw [parse_ok_none_elim h]
    rfl
  | some rec =>
    right
    obtain ⟨t, params, fc, sc, sw, cr, box, _, _, hp⟩ := parse_ok_some_elim h
    have h24 := pack_rec_length hp
    exact ⟨rec, rfl, h24, by rw [byteLength, h24]⟩

/-- Witness for C10 at a concrete default circle entry. -/
theorem record_size_total_witness :
    (parse_primitive (fun _ => 0) (fun _ => 0) (Prim.circle none none none none none) 5 =
      Except.ok (some recCircleDefault)) ∧
    ((some recCircleDefault = none ∧
        recognized (Prim.circle none none none none none) = false) ∨
      ∃ rec, some recCircleDefault = some rec ∧ rec.length = 24 ∧ byteLength rec = 96) :=
  ⟨circle_default_eval,
   record_size_total (fun _ => 0) (fun _ => 0) (Prim.circle none none none none none) 5
     (some recCircleDefault) circle_default_eval⟩

/-- Claim C3: for every recognized kind and entry, decoding the emitted
96-byte record by the spec's documented word layout (`decodeRecord`)
recovers exactly the values the encoder was supplied for that kind:
type tag at word 0, the layer at word 1, the kind's declared parameter
values (with documented defaults for absent fields) zero-padded over
words 2-13, the packed fill and stroke colors at words 14-15, stroke
width and corner rounding at words 16-17, the derived AABB at words
18-21 and zero reserved words. -/
theorem record_roundtrip (sd cd : ℚ → ℚ) (p : Prim) (l : Int) (rec : List Word)
    (h : parse_primitive sd cd p l = Except.ok (some rec)) :
    ∃ t params fc sc sw cr box,
      primSetup sd cd p = Except.ok (some (t, params, fc, sc, sw, cr)) ∧
      compute_aabb t params sw cr = some box ∧
      decodeRecord rec = some ⟨t, l, params ++ List.replicate (12 - params.length) 0,
        fc, sc, sw, cr, box.1, box.2.1, box.2.2.1, box.2.2.2, 0, 0⟩ := by
  obtain ⟨t, params, fc, sc, sw, cr, box, hs, hab, hp⟩ := parse_ok_some_elim h
  exact ⟨t, params, fc, sc, sw, cr, box, hs, hab, decode_pack hp⟩

/-- Witness for C3 at a concrete default circle entry. -/
theorem record_roundtrip_witness :
    (parse_primitive (fun _ => 0) (fun _ => 0) (Prim.circle none none none none none) 5 =
      Except.ok (some recCircleDefault)) ∧
    ∃ t params fc sc sw cr box,
      primSetup (fun _ => 0) (fun _ => 0) (Prim.circle none none none none none) =
        Except.ok (some (t, params, fc, sc, sw, cr)) ∧
      compute_aabb t params sw cr = some box ∧
      decodeRecord recCircleDefault =
        some ⟨t, 5, params ++ List.replicate (12 - params.length) 0,
          fc, sc, sw, cr, box.1, box.2.1, box.2.2.1, box.2.2.2, 0, 0⟩ :=
  ⟨circle_default_eval,
   record_roundtrip (fun _ => 0) (fun _ => 0) (Prim.circle none none none none none) 5
     recCircleDefault circle_default_eval⟩

/-! ## Malformed color literals (claim C8) -/

/-- An ASCII-only string: on these the model of `int(...)` is exact
(Python additionally accepts non-ASCII Unicode decimal digits, which
the model treats as non-digits). -/
def isAsciiStr (s : String) : Bool := s.data.all (fun c => c.toNat < 128)

/-- An ASCII literal matching none of the three `parse_color` input
patterns: not a `'#'` literal, not a `0x`/`0X` literal, and not a bare
integer literal accepted by `int(...)`. -/
def malformedColor (s : String) : Bool :=
  isAsciiStr s && !startsHash s.data && !startsZeroX s.data && (pyInt10 s.data).isNone

theorem malformed_parse_color {s : String} (h : malformedColor s = true) :
    parseColorStr s = Except.error () := by
  rw [malformedColor, Bool.and_eq_true, Bool.and_eq_true, Bool.and_eq_true] at h
  obtain ⟨⟨⟨-, h1⟩, h2⟩, h3⟩ := h
  rw [Bool.not_eq_true'] at h1 h2
  rw [Option.isNone_iff_eq_none] at h3
  rw [parseColorStr, parse_color, if_neg (by simp [h1]), if_neg (by simp [h2]), h3]

def colorLits : Prim → List String
  | Prim.circle _ _ fill stroke _ => fill.toList ++ stroke.toList
  | Prim.box _ _ fill stroke _ _ => fill.toList ++ stroke.toList
  | Prim.segment _ _ stroke _ => stroke.toList
  | Prim.triangle _ _ _ fill stroke _ => fill.toList ++ stroke.toList
  | Prim.ellipse _ _ fill stroke _ => fill.toList ++ stroke.toList
  | Prim.bezier _ _ _ stroke _ => stroke.toList
  | Prim.arc _ _ _ _ fill stroke _ => fill.toList ++ stroke.toList
  | Prim.pentagon _ _ fill stroke _ => fill.toList ++ stroke.toList
  | Prim.hexagon _ _ fill stroke _ => fill.toList ++ stroke.toList
  | Prim.star _ _ _ _ fill stroke _ => fill.toList ++ stroke.toList
  | Prim.pie _ _ _ fill stroke _ => fill.toList ++ stroke.toList
  | Prim.ring _ _ _ _ fill stroke _ => fill.toList ++ stroke.toList
  | Prim.heart _ _ fill stroke _ => fill.toList ++ stroke.toList
  | Prim.cross _ _ _ fill stroke _ => fill.toList ++ stroke.toList
  | Prim.roundedX _ _ _ fill stroke _ => fill.toList ++ stroke.toList
  | Prim.capsule _ _ _ fill stroke _ => fill.toList ++ stroke.toList
  | Prim.rhombus _ _ fill stroke _ => fill.toList ++ stroke.toList
  | Prim.moon _ _ _ _ fill stroke _ => fill.toList ++ stroke.toList
  | Prim.egg _ _ _ fill stroke _ => fill.toList ++ stroke.toList
  | Prim.unknown => []

theorem bind2_err {α β γ : Type} {A : Except Unit α} {B : Except Unit β} {g : α → β → γ}
    (h : A = Except.error () ∨ B = Except.error ()) :
    (A >>= fun a => B >>= fun b => pure (g a b)) = (Except.error () : Except Unit γ) := by
  rcases h with h | h
  · rw [h, except_bind_err]
  · cases A with
    | error e => cases e; rw [except_bind_err]
    | ok a => rw [except_bind_ok, h, except_bind_err]

theorem bind1_err {α γ : Type} {A : Except Unit α} {g : α → γ}
    (h : A = Except.error ()) :
    (A >>= fun a => pure (g a)) = (Except.error () : Except Unit γ) := by
  rw [h, except_bind_err]

theorem setup_malformed_err (sd cd : ℚ → ℚ) (p : Prim) (s : String)
    (hs : s ∈ colorLits p) (hm : malformedColor s = true) :
    primSetup sd cd p = Except.error () := by
  have herr : parseColorStr s = Except.error () := malformed_parse_color hm
  cases p <;>
    simp only [colorLits, List.mem_append, Option.mem_toList, Option.mem_def,
      List.not_mem_nil] at hs <;>
  simp only [primSetup] <;>
  first
  | (refine bind2_err ?_
     rcases hs with h | h <;>
       first
       | (left
          rw [h]
          simpa using herr)
       | (right
          rw [h]
          simpa using herr))
  | (refine bind1_err ?_
     rw [hs]
     simpa [strokeOrWhite] using herr)

theorem step_err {sd cd : ℚ → ℚ} {st : PackState} {p : Prim}
    (h : parse_primitive sd cd p st.layer = Except.error ()) :
    procPrimStep sd cd st p = Except.error () := by
  rw [procPrimStep, h, except_bind_err]

theorem foldPrims_err {sd cd : ℚ → ℚ} {p : Prim}
    (hp : ∀ l : Int, parse_primitive sd cd p l = Except.error ()) :
    ∀ ps : List Prim, ∀ st : PackState, p ∈ ps →
      ps.foldlM (procPrimStep sd cd) st = Except.error () := by
  intro ps
  induction ps with
  | nil => intro st h; cases h
  | cons q ps ih =>
    intro st h
    rw [List.foldlM_cons]
    rcases List.mem_cons.mp h with rfl | h'
    · rw [step_err (hp st.layer), except_bind_err]
    · cases hq : procPrimStep sd cd st q with
      | error e => cases e; rw [except_bind_err]
      | ok st' => rw [except_bind_ok]; exact ih st' h'

theorem item_err {sd cd : ℚ → ℚ} {p : Prim}
    (hp : ∀ l : Int, parse_primitive sd cd p l = Except.error ()) :
    ∀ it : Item, ∀ st : PackState, p ∈ entriesOfItem it →
      procItem sd cd st it = Except.error () := by
  intro it st h
  cases it with
  | nonDict => cases h
  | prim q =>
    rcases List.mem_singleton.mp h with rfl
    exact step_err (hp st.layer)
  | withBody ps => exact foldPrims_err hp ps st h

theorem foldItems_err {sd cd : ℚ → ℚ} {p : Prim}
    (hp : ∀ l : Int, parse_primitive sd cd p l = Except.error ()) :
    ∀ its : List Item, ∀ st : PackState, p ∈ its.flatMap entriesOfItem →
      its.foldlM (procItem sd cd) st = Except.error () := by
  intro its
  induction its with
  | nil => intro st h; cases h
  | cons it its ih =>
    intro st h
    rw [List.foldlM_cons]
    by_cases hin : p ∈ entriesOfItem it
    · rw [item_err hp it st hin, except_bind_err]
    · have h' : p ∈ its.flatMap entriesOfItem := by
        rcases List.mem_flatMap.mp h with ⟨u, hu, hpu⟩
        rcases List.mem_cons.mp hu with rfl | hu'
        · exact absurd hpu hin
        · exact List.mem_flatMap.mpr ⟨u, hu', hpu⟩
      cases hq : procItem sd cd st it with
      | error e => cases e; rw [except_bind_err]
      | ok st' => rw [except_bind_ok]; exact ih st' h'

theorem doc_err {sd cd : ℚ → ℚ} {p : Prim}
    (hp : ∀ l : Int, parse_primitive sd cd p l = Except.error ()) :
    ∀ doc : YDoc, ∀ st : PackState, p ∈ entriesOfDoc doc →
      procDoc sd cd st doc = Except.error () := by
  intro doc st h
  cases doc with
  | scalar => cases h
  | list its => exact foldItems_err hp its st h
  | dict d =>
    obtain ⟨body, bg, fl⟩ := d
    cases body with
    | none => cases h
    | some ps =>
      have hfold := foldPrims_err hp ps st h
      simp [procDoc, procDocDict, hfold, except_bind_err]

theorem docs_err {sd cd : ℚ → ℚ} {p : Prim}
    (hp : ∀ l : Int, parse_primitive sd cd p l = Except.error ()) :
    ∀ docs : List YDoc, ∀ st : PackState, p ∈ entriesOf docs →
      docs.foldlM (procDoc sd cd) st = Except.error () := by
  intro docs
  induction docs with
  | nil => intro st h; cases h
  | cons doc docs ih =>
    intro st h
    rw [List.foldlM_cons]
    by_cases hin : p ∈ entriesOfDoc doc
    · rw [doc_err hp doc st hin, except_bind_err]
    · have h' : p ∈ entriesOf docs := by
        rcases List.mem_flatMap.mp h with ⟨u, hu, hpu⟩
        rcases List.mem_cons.mp hu with rfl | hu'
        · exact absurd hpu hin
        · exact List.mem_flatMap.mpr ⟨u, hu', hpu⟩
      cases hq : procDoc sd cd st doc with
      | error e => cases e; rw [except_bind_err]
      | ok st' => rw [except_bind_ok]; exact ih st' h'

theorem pack_err {sd cd : ℚ → ℚ} {p : Prim} {docs : List YDoc}
    (hp : ∀ l : Int, parse_primitive sd cd p l = Except.error ())
    (hmem : p ∈ entriesOf docs) :
    parse_yaml_to_binary sd cd docs = Except.error () := by
  rw [parse_yaml_to_binary, docs_err hp docs initPackState hmem, except_bind_err]

/-- Claim C8: a recognized primitive entry whose explicit fill or stroke
color literal is malformed (an ASCII literal matching neither the `'#'`
pattern, the `0x` pattern, nor a bare integer literal of `int(...)`)
fails to encode — `parse_primitive` raises at every layer, and any pack
of a document stream containing that entry raises as a whole — so no
guessed color value is ever written into a record. -/
theorem malformed_color_aborts (sd cd : ℚ → ℚ) (p : Prim) (s : String)
    (hs : s ∈ colorLits p) (hm : malformedColor s = true) :
    (∀ l : Int, parse_primitive sd cd p l = Except.error ()) ∧
    (∀ docs : List YDoc, p ∈ entriesOf docs →
      parse_yaml_to_binary sd cd docs = Except.error ()) := by
  have hset := setup_malformed_err sd cd p s hs hm
  have hparse : ∀ l : Int, parse_primitive sd cd p l = Except.error () := by
    intro l
    rw [parse_primitive, hset, except_bind_err]
  exact ⟨hparse, fun docs hmem => pack_err hparse hmem⟩

/-- Witness for C8: a circle whose fill is the malformed literal
`"red"`. -/
theorem malformed_color_aborts_witness :
    ("red" ∈ colorLits (Prim.circle none none (some "red") none none) ∧
     malformedColor "red" = true) ∧
    ((∀ l : Int, parse_primitive (fun _ => 0) (fun _ => 0)
        (Prim.circle none none (some "red") none none) l = Except.error ()) ∧
     (∀ docs : List YDoc,
        Prim.circle none none (some "red") none none ∈ entriesOf docs →
        parse_yaml_to_binary (fun _ => 0) (fun _ => 0) docs = Except.error ())) :=
  ⟨⟨by decide, by decide⟩,
   malformed_color_aborts (fun _ => 0) (fun _ => 0)
     (Prim.circle none none (some "red") none none) "red" (by decide) (by decide)⟩

/-! ## Top-level document shape (claim C7) -/

/-- Counterexample to claim C7 as stated: a document stream whose only
top-level document is a scalar (neither list nor mapping) does not abort
— the pack succeeds and produces the 16-byte header buffer with
`primCount = 0` and the default background and flags. -/
theorem scalar_doc_abort_counterexample :
    parse_yaml_to_binary (fun _ => 0) (fun _ => 0) [YDoc.scalar] =
      Except.ok ([Word.u 1, Word.u 0, Word.u 0xFF2E1A1A, Word.u 0], 0xFF2E1A1A, 0) := by
  decide

/-- Claim C7 (amended): a top-level document that is neither a list nor
a mapping is silently ignored — it falls through both `isinstance`
checks, contributing nothing — so the pack of any stream is unchanged by
inserting such a document anywhere; the only whole-pack abort is the
YAML text parse failure upstream of the modelled walk. -/
theorem scalar_doc_skipped (sd cd : ℚ → ℚ) (pre post : List YDoc) :
    parse_yaml_to_binary sd cd (pre ++ YDoc.scalar :: post) =
      parse_yaml_to_binary sd cd (pre ++ post) := by
  simp [parse_yaml_to_binary, List.foldlM_append, List.foldlM_cons, procDoc,
    except_bind_ok, except_pure]

/-! ## Buffer size law (claim C2) -/

/-- All accumulated records are 24 words. -/
def Rec24 (st : PackState) : Prop := ∀ r ∈ st.primitives, r.length = 24

theorem step_cases {sd cd : ℚ → ℚ} {st : PackState} {p : Prim} {st' : PackState}
    (h : procPrimStep sd cd st p = Except.ok st') :
    (parse_primitive sd cd p st.layer = Except.ok none ∧ st' = st) ∨
    ∃ rec, parse_primitive sd cd p st.layer = Except.ok (some rec) ∧
      st' = { st with primitives := st.primitives ++ [rec], layer := st.layer + 1 } := by
  rw [procPrimStep] at h
  cases hp : parse_primitive sd cd p st.layer with
  | error e => rw [hp, except_bind_err] at h; cases h
  | ok v =>
    rw [hp, except_bind_ok] at h
    cases v with
    | none =>
      left
      simp only [except_pure, Except.ok.injEq] at h
      exact ⟨rfl, h.symm⟩
    | some rec =>
      right
      simp only [except_pure, Except.ok.injEq] at h
      exact ⟨rec, rfl, h.symm⟩

theorem step_rec24 {sd cd : ℚ → ℚ} {st : PackState} {p : Prim} {st' : PackState}
    (h : procPrimStep sd cd st p = Except.ok st') (hr : Rec24 st) : Rec24 st' := by
  rcases step_cases h with ⟨_, rfl⟩ | ⟨rec, hp, rfl⟩
  · exact hr
  · intro r hmem
    rcases List.mem_append.mp hmem with hm | hm
    · exact hr r hm
    · rcases List.mem_singleton.mp hm with rfl
      obtain ⟨t, params, fc, sc, sw, cr, box, _, _, hpk⟩ := parse_ok_some_elim hp
      exact pack_rec_length hpk

theorem foldPrims_rec24 {sd cd : ℚ → ℚ} :
    ∀ ps : List Prim, ∀ st st' : PackState,
      ps.foldlM (procPrimStep sd cd) st = Except.ok st' → Rec24 st → Rec24 st' := by
  intro ps
  induction ps with
  | nil => intro st st' h hr; rw [List.foldlM_nil] at h; cases h; exact hr
  | cons p ps ih =>
    intro st st' h hr
    rw [List.foldlM_cons] at h
    cases hq : procPrimStep sd cd st p with
    | error e => rw [hq, except_bind_err] at h; cases h
    | ok st1 =>
      rw [hq, except_bind_ok] at h
      exact ih st1 st' h (step_rec24 hq hr)

theorem item_rec24 {sd cd : ℚ → ℚ} {it : Item} {st st' : PackState}
    (h : procItem sd cd st it = Except.ok st') (hr : Rec24 st) : Rec24 st' := by
  cases it with
  | nonDict => cases h; exact hr
  | prim p => exact step_rec24 h hr
  | withBody ps => exact foldPrims_rec24 ps st st' h hr

theorem foldItems_rec24 {sd cd : ℚ → ℚ} :
    ∀ its : List Item, ∀ st st' : PackState,
      its.foldlM (procItem sd cd) st = Except.ok st' → Rec24 st → Rec24 st' := by
  intro its
  induction its with
  | nil => intro st st' h hr; rw [List.foldlM_nil] at h; cases h; exact hr
  | cons it its ih =>
    intro st st' h hr
    rw [List.foldlM_cons] at h
    cases hq : procItem sd cd st it with
    | error e => rw [hq, except_bind_err] at h; cases h
    | ok st1 =>
      rw [hq, except_bind_ok] at h
      exact ih st1 st' h (item_rec24 hq hr)

theorem docdict_prims {sd cd : ℚ → ℚ} {d : DocDict} {st st' : PackState}
    (h : procDocDict sd cd st d = Except.ok st') :
    ∃ st1, (d.body.getD []).foldlM (procPrimStep sd cd) st = Except.ok st1 ∧
      st'.primitives = st1.primitives ∧ st'.layer = st1.layer := by
  obtain ⟨body, bg, fl⟩ := d
  simp only [procDocDict] at h
  cases body with
  | none =>
    dsimp only at h
    rw [except_pure, except_bind_ok] at h
    refine ⟨st, by simp [except_pure], ?_⟩
    cases bg with
    | none =>
      dsimp only at h
      rw [except_pure, except_bind_ok, except_pure] at h
      cases h
      cases fl <;> exact ⟨rfl, rfl⟩
    | some s =>
      dsimp only at h
      cases hc : parseColorStr s with
      | error e => rw [hc, except_bind_err] at h; cases h
      | ok v =>
        rw [hc, except_bind_ok, except_pure, except_bind_ok, except_pure] at h
        cases h
        cases fl <;> exact ⟨rfl, rfl⟩
  | some ps =>
    dsimp only at h
    cases hf : ps.foldlM (procPrimStep sd cd) st with
    | error e => rw [hf, except_bind_err] at h; cases h
    | ok st1 =>
      rw [hf, except_bind_ok] at h
      refine ⟨st1, by simpa using hf, ?_⟩
      cases bg with
      | none =>
        dsimp only at h
        rw [except_pure, except_bind_ok, except_pure] at h
        cases h
        cases fl <;> exact ⟨rfl, rfl⟩
      | some s =>
        dsimp only at h
        cases hc : parseColorStr s with
        | error e => rw [hc, except_bind_err] at h; cases h
        | ok v =>
          rw [hc, except_bind_ok, except_pure, except_bind_ok, except_pure] at h
          cases h
          cases fl <;> exact ⟨rfl, rfl⟩

theorem docdict_rec24 {sd cd : ℚ → ℚ} {d : DocDict} {st st' : PackState}
    (h : procDocDict sd cd st d = Except.ok st') (hr : Rec24 st) : Rec24 st' := by
  obtain ⟨st1, hf, hp, _⟩ := docdict_prims h
  intro r hmem
  rw [hp] at hmem
  exact foldPrims_rec24 _ st st1 hf hr r hmem

theorem doc_rec24 {sd cd : ℚ → ℚ} {doc : YDoc} {st st' : PackState}
    (h : procDoc sd cd st doc = Except.ok st') (hr : Rec24 st) : Rec24 st' := by
  cases doc with
  | scalar => cases h; exact hr
  | list its => exact foldItems_rec24 its st st' h hr
  | dict d => exact docdict_rec24 h hr

theorem docs_rec24 {sd cd : ℚ → ℚ} :
    ∀ docs : List YDoc, ∀ st st' : PackState,
      docs.foldlM (procDoc sd cd) st = Except.ok st' → Rec24 st → Rec24 st' := by
  intro docs
  induction docs with
  | nil => intro st st' h hr; rw [List.foldlM_nil] at h; cases h; exact hr
  | cons doc docs ih =>
    intro st st' h hr
    rw [List.foldlM_cons] at h
    cases hq : procDoc sd cd st doc with
    | error e => rw [hq, except_bind_err] at h; cases h
    | ok st1 =>
      rw [hq, except_bind_ok] at h
      exact ih st1 st' h (doc_rec24 hq hr)

theorem flatten_len24 {rs : List (List Word)} (h : ∀ r ∈ rs, r.length = 24) :
    rs.flatten.length = 24 * rs.length := by
  induction rs with
  | nil => simp
  | cons r rs ih =>
    simp only [List.flatten_cons, List.length_append, List.length_cons]
    rw [h r (List.mem_cons_self r rs), ih (fun q hq => h q (List.mem_cons_of_mem r hq))]
    ring

/-- Claim C2: whenever the packer returns a buffer, the buffer's byte
length is exactly `16 + 96 * primCount`, where `primCount` is the value
written in word 1 of the buffer's own header — a 16-byte header plus
96 bytes for each emitted record. -/
theorem buffer_size_law (sd cd : ℚ → ℚ) (docs : List YDoc) (buf : List Word)
    (bg fl : Int) (h : parse_yaml_to_binary sd cd docs = Except.ok (buf, bg, fl)) :
    ∃ n : Nat, wordU buf 1 = some (n : Int) ∧ byteLength buf = 16 + 96 * n := by
  rw [parse_yaml_to_binary] at h
  cases hst : docs.foldlM (procDoc sd cd) initPackState with
  | error e => rw [hst, except_bind_err] at h; cases h
  | ok st =>
    rw [hst, except_bind_ok] at h
    cases hh : packHeader (st.primitives.length : Int) st.bg_color st.flags with
    | error e => rw [hh, except_bind_err] at h; cases h
    | ok header =>
      rw [hh, except_bind_ok] at h
      simp only [except_pure, Except.ok.injEq, Prod.mk.injEq] at h
      obtain ⟨hbuf, -, -⟩ := h
      rw [packHeader] at hh
      split at hh
      · cases hh
        have hrec24 : Rec24 st :=
          docs_rec24 docs initPackState st hst (by intro r hr; cases hr)
        refine ⟨st.primitives.length, ?_, ?_⟩
        · rw [← hbuf]; rfl
        · rw [← hbuf, byteLength]
          simp only [List.length_append, List.length_cons, List.length_nil,
            flatten_len24 hrec24]
          ring
      · cases hh

/-- Witness for C2 on a concrete mapping document with a background and
one flag. -/
theorem buffer_size_law_witness :
    (parse_yaml_to_binary (fun _ => 0) (fun _ => 0)
      [YDoc.dict ⟨none, some "#000000", some (FlagsVal.str "show_bounds")⟩] =
      Except.ok ([Word.u 1, Word.u 0, Word.u 0xFF000000, Word.u 1], 0xFF000000, 1)) ∧
    ∃ n : Nat, wordU [Word.u 1, Word.u 0, Word.u 0xFF000000, Word.u 1] 1 = some (n : Int) ∧
      byteLength [Word.u 1, Word.u 0, Word.u 0xFF000000, Word.u 1] = 16 + 96 * n :=
  ⟨by decide, buffer_size_law (fun _ => 0) (fun _ => 0)
    [YDoc.dict ⟨none, some "#000000", some (FlagsVal.str "show_bounds")⟩]
    [Word.u 1, Word.u 0, Word.u 0xFF000000, Word.u 1] 0xFF000000 1 (by decide)⟩

/-! ## Layer monotonicity (claim C1) -/

theorem okU32_iff {n : Int} : okU32 n = true ↔ 0 ≤ n ∧ n < 4294967296 := by
  simp [okU32]

theorem int_lor_bound {a b : Int} (ha : 0 ≤ a ∧ a < 4294967296)
    (hb : 0 ≤ b ∧ b < 4294967296) :
    0 ≤ Int.lor a b ∧ Int.lor a b < 4294967296 := by
  obtain ⟨m, rfl⟩ := Int.eq_ofNat_of_zero_le ha.1
  obtain ⟨n, rfl⟩ := Int.eq_ofNat_of_zero_le hb.1
  have hm : m < 2 ^ 32 := by exact_mod_cast (by exact_mod_cast ha.2 : (m : Int) < 4294967296)
  have hn : n < 2 ^ 32 := by exact_mod_cast (by exact_mod_cast hb.2 : (n : Int) < 4294967296)
  have hcast : Int.lor (m : Int) (n : Int) = ((m ||| n : Nat) : Int) := rfl
  rw [hcast]
  constructor
  · exact Int.ofNat_nonneg _
  · have := Nat.bitwise_lt (f := or) hm hn
    have hh : m ||| n < 2 ^ 32 := this
    exact_mod_cast (by exact_mod_cast hh : ((m ||| n : Nat) : Int) < ((2 ^ 32 : Nat) : Int))

theorem applyFlag_bound {a : Int} (f : String) (ha : 0 ≤ a ∧ a < 4294967296) :
    0 ≤ applyFlag a f ∧ applyFlag a f < 4294967296 := by
  rw [applyFlag]
  split
  · exact int_lor_bound ha (by constructor <;> norm_num)
  · split
    · exact int_lor_bound ha (by constructor <;> norm_num)
    · split
      · exact int_lor_bound ha (by constructor <;> norm_num)
      · exact ha

theorem applyFlags_bound {a : Int} (v : FlagsVal) (ha : 0 ≤ a ∧ a < 4294967296) :
    0 ≤ applyFlags a v ∧ applyFlags a v < 4294967296 := by
  cases v with
  | str s => exact applyFlag_bound s ha
  | list l =>
    rw [applyFlags]
    induction l generalizing a with
    | nil => exact ha
    | cons f l ih => exact ih (applyFlag_bound f ha)

/-- A document entry the packer can always process: `parse_primitive`
does not raise on it at layer 0 (and hence, by `parse_shift`, at any
in-range layer — the layer only feeds the `'<I'` range check). -/
def entryOK (sd cd : ℚ → ℚ) (p : Prim) : Bool :=
  match parse_primitive sd cd p 0 with
  | Except.ok _ => true
  | Except.error _ => false

theorem recognized_iff {p : Prim} : recognized p = true ↔ p ≠ Prim.unknown := by
  cases p <;> simp [recognized]

theorem parse_unknown (sd cd : ℚ → ℚ) (l : Int) :
    parse_primitive sd cd Prim.unknown l = Except.ok none := rfl

theorem parse_shift {sd cd : ℚ → ℚ} {p : Prim} {rec0 : List Word} {l : Int}
    (h : parse_primitive sd cd p 0 = Except.ok (some rec0)) (hl : okU32 l = true) :
    ∃ rec, parse_primitive sd cd p l = Except.ok (some rec) ∧
      wordU rec 1 = some l ∧ rec.length = 24 := by
  obtain ⟨t, params, fc, sc, sw, cr, box, hs, hab, hp⟩ := parse_ok_some_elim h
  obtain ⟨h12, ht, -, hfc, hsc, -⟩ := pack_ok_parts hp
  have hp' : pack_sdf_primitive t l params fc sc sw cr box =
      Except.ok ([Word.u t, Word.u l] ++
        (params ++ List.replicate (12 - params.length) 0).map Word.f ++
        [Word.u fc, Word.u sc, Word.f sw, Word.f cr,
         Word.f box.1, Word.f box.2.1, Word.f box.2.2.1, Word.f box.2.2.2,
         Word.u 0, Word.u 0]) := by
    rw [pack_sdf_primitive, if_pos]
    simp [h12, ht, hl, hfc, hsc]
  refine ⟨_, ?_, pack_rec_layer hp', pack_rec_length hp'⟩
  rw [parse_primitive, hs, except_bind_ok]
  dsimp only
  rw [hab]
  simp [ofOpt, except_bind_ok, except_pure, hp']

theorem countRec_nil : countRec [] = 0 := rfl

theorem countRec_cons (p : Prim) (ps : List Prim) :
    countRec (p :: ps) = (if recognized p then 1 else 0) + countRec ps := by
  simp [countRec, List.filter_cons]
  split <;> simp [Nat.add_comm]

theorem countRec_append (a b : List Prim) :
    countRec (a ++ b) = countRec a + countRec b := by
  simp [countRec, List.filter_append]

/-- The records-and-layers relation between two packer states: the run
from `st` to `st'` appended `recs`, advanced the layer counter by their
number, and stamped consecutive layers starting at `st.layer` into
word 1 of the new records. -/
def Emits (st st' : PackState) (recs : List (List Word)) : Prop :=
  st'.primitives = st.primitives ++ recs ∧
  st'.layer = st.layer + (recs.length : Int) ∧
  recs.map (fun r => wordU r 1) =
    (List.range recs.length).map (fun i => some (st.layer + Int.ofNat i))

theorem emits_nil (st : PackState) : Emits st st [] := by
  refine ⟨by simp, by simp, by simp⟩

theorem emits_trans {st st1 st2 : PackState} {r1 r2 : List (List Word)}
    (h1 : Emits st st1 r1) (h2 : Emits st1 st2 r2) : Emits st st2 (r1 ++ r2) := by
  obtain ⟨hp1, hl1, hm1⟩ := h1
  obtain ⟨hp2, hl2, hm2⟩ := h2
  refine ⟨by rw [hp2, hp1, List.append_assoc], ?_, ?_⟩
  · rw [hl2, hl1, List.length_append]
    push_cast
    ring
  · rw [List.map_append, hm1, hm2, List.length_append, List.range_add,
      List.map_append, List.map_map]
    congr 1
    apply List.map_congr_left
    intro i _
    simp only [Function.comp_apply, hl1, Int.ofNat_eq_coe]
    push_cast
    ring_nf

theorem step_emits {sd cd : ℚ → ℚ} {st : PackState} {p : Prim}
    (hok : entryOK sd cd p = true) (h0 : 0 ≤ st.layer) (hlt : st.layer < 4294967296) :
    ∃ st' recs, procPrimStep sd cd st p = Except.ok st' ∧ Emits st st' recs ∧
      recs.length = countRec [p] ∧
      st'.bg_color = st.bg_color ∧ st'.flags = st.flags := by
  rw [entryOK] at hok
  cases h0p : parse_primitive sd cd p 0 with
  | error e => rw [h0p] at hok; cases hok
  | ok v =>
    cases v with
    | none =>
      have hu := parse_ok_none_elim h0p
      subst hu
      refine ⟨st, [], ?_, emits_nil st, by simp [countRec, recognized], rfl, rfl⟩
      rw [procPrimStep, parse_unknown, except_bind_ok]
      rfl
    | some rec0 =>
      obtain ⟨rec, hpl, hw1, h24⟩ := parse_shift h0p (okU32_iff.mpr ⟨h0, hlt⟩)
      have hrec : recognized p = true := by
        rw [recognized_iff]
        intro hu
        subst hu
        rw [parse_unknown] at h0p
        cases h0p
      refine ⟨{ st with primitives := st.primitives ++ [rec], layer := st.layer + 1 },
        [rec], ?_, ⟨rfl, by simp, by simp [hw1, List.range_succ]⟩, by simp [countRec, hrec], rfl, rfl⟩
      rw [procPrimStep, hpl, except_bind_ok]
      rfl

theorem foldPrims_emits {sd cd : ℚ → ℚ} :
    ∀ ps : List Prim, ∀ st : PackState,
      (∀ p ∈ ps, entryOK sd cd p = true) → 0 ≤ st.layer →
      st.layer + (countRec ps : Int) < 4294967296 →
      ∃ st' recs, ps.foldlM (procPrimStep sd cd) st = Except.ok st' ∧
        Emits st st' recs ∧ recs.length = countRec ps ∧
        st'.bg_color = st.bg_color ∧ st'.flags = st.flags := by
  intro ps
  induction ps with
  | nil =>
    intro st hE h0 hb
    exact ⟨st, [], by simp [except_pure], emits_nil st, rfl, rfl, rfl⟩
  | cons p ps ih =>
    intro st hE h0 hb
    have hcnt : countRec (p :: ps) = (if recognized p then 1 else 0) + countRec ps :=
      countRec_cons p ps
    have hlt : st.layer < 4294967296 := by
      have : (0 : Int) ≤ (countRec (p :: ps) : Int) := Int.ofNat_nonneg _
      omega
    obtain ⟨st1, r1, hstep, hem1, hr1, hbg1, hfl1⟩ :=
      step_emits (hE p (List.mem_cons_self p ps)) h0 hlt
    have h01 : 0 ≤ st1.layer := by
      have := hem1.2.1
      have : st1.layer = st.layer + (r1.length : Int) := this
      omega
    have hb1 : st1.layer + (countRec ps : Int) < 4294967296 := by
      have hl1 : st1.layer = st.layer + (r1.length : Int) := hem1.2.1
      rw [hl1, hr1]
      rw [hcnt] at hb
      by_cases hr : recognized p = true <;>
        simp only [hr, countRec_cons, countRec_nil, if_true, if_false,
          Bool.false_eq_true] at hb ⊢ <;>
      · push_cast at hb ⊢
        omega
    obtain ⟨st', recs, hfold, hem2, hr2, hbg2, hfl2⟩ := ih st1 
      (fun q hq => hE q (List.mem_cons_of_mem p hq)) h01 hb1
    refine ⟨st', r1 ++ recs, ?_, emits_trans hem1 hem2, ?_, by rw [hbg2, hbg1], by rw [hfl2, hfl1]⟩
    · rw [List.foldlM_cons, hstep, except_bind_ok]
      exact hfold
    · by_cases hr : recognized p = true <;>
        simp [List.length_append, hr1, hr2, hcnt, countRec_cons, countRec_nil, hr]

/-- Validity of the document-level header inputs carried through the
walk: the current background and flags fit `'<I'`. -/
def StInv (st : PackState) : Prop :=
  okU32 st.bg_color = true ∧ okU32 st.flags = true

theorem emits_congr {st st1 st' : PackState} {recs : List (List Word)}
    (h : Emits st st1 recs) (hp : st'.primitives = st1.primitives)
    (hl : st'.layer = st1.layer) : Emits st st' recs := by
  obtain ⟨h1, h2, h3⟩ := h
  exact ⟨by rw [hp, h1], by rw [hl, h2], h3⟩

theorem item_emits {sd cd : ℚ → ℚ} {it : Item} {st : PackState}
    (hE : ∀ p ∈ entriesOfItem it, entryOK sd cd p = true)
    (h0 : 0 ≤ st.layer)
    (hb : st.layer + (countRec (entriesOfItem it) : Int) < 4294967296) :
    ∃ st' recs, procItem sd cd st it = Except.ok st' ∧ Emits st st' recs ∧
      recs.length = countRec (entriesOfItem it) ∧
      st'.bg_color = st.bg_color ∧ st'.flags = st.flags := by
  cases it with
  | nonDict => exact ⟨st, [], rfl, emits_nil st, rfl, rfl, rfl⟩
  | prim p =>
    have hlt : st.layer < 4294967296 := by
      have : (0 : Int) ≤ (countRec (entriesOfItem (Item.prim p)) : Int) :=
        Int.ofNat_nonneg _
      omega
    exact step_emits (hE p (List.mem_singleton_self p)) h0 hlt
  | withBody ps => exact foldPrims_emits ps st hE h0 hb

theorem foldItems_emits {sd cd : ℚ → ℚ} :
    ∀ its : List Item, ∀ st : PackState,
      (∀ p ∈ its.flatMap entriesOfItem, entryOK sd cd p = true) → 0 ≤ st.layer →
      st.layer + (countRec (its.flatMap entriesOfItem) : Int) < 4294967296 →
      ∃ st' recs, its.foldlM (procItem sd cd) st = Except.ok st' ∧
        Emits st st' recs ∧ recs.length = countRec (its.flatMap entriesOfItem) ∧
        st'.bg_color = st.bg_color ∧ st'.flags = st.flags := by
  intro its
  induction its with
  | nil =>
    intro st hE h0 hb
    exact ⟨st, [], by simp [except_pure], emits_nil st, rfl, rfl, rfl⟩
  | cons it its ih =>
    intro st hE h0 hb
    have hsplit : (it :: its).flatMap entriesOfItem =
        entriesOfItem it ++ its.flatMap entriesOfItem := by
      simp [List.flatMap_cons]
    rw [hsplit, countRec_append] at hb
    have hb1 : st.layer + (countRec (entriesOfItem it) : Int) < 4294967296 := by
      have : (0 : Int) ≤ (countRec (its.flatMap entriesOfItem) : Int) := Int.ofNat_nonneg _
      push_cast at hb ⊢
      omega
    obtain ⟨st1, r1, hstep, hem1, hr1, hbg1, hfl1⟩ :=
      item_emits (fun p hp => hE p (by rw [hsplit]; exact List.mem_append_left _ hp)) h0 hb1
    have h01 : 0 ≤ st1.layer := by
      have hl1 : st1.layer = st.layer + (r1.length : Int) := hem1.2.1
      have : (0 : Int) ≤ (r1.length : Int) := Int.ofNat_nonneg _
      omega
    have hb2 : st1.layer + (countRec (its.flatMap entriesOfItem) : Int) < 4294967296 := by
      have hl1 : st1.layer = st.layer + (r1.length : Int) := hem1.2.1
      rw [hl1, hr1]
      push_cast at hb ⊢
      omega
    obtain ⟨st', recs, hfold, hem2, hr2, hbg2, hfl2⟩ := ih st1
      (fun q hq => hE q (by rw [hsplit]; exact List.mem_append_right _ hq)) h01 hb2
    refine ⟨st', r1 ++ recs, ?_, emits_trans hem1 hem2, ?_, by rw [hbg2, hbg1],
      by rw [hfl2, hfl1]⟩
    · rw [List.foldlM_cons, hstep, except_bind_ok]
      exact hfold
    · rw [List.length_append, hr1, hr2, hsplit, countRec_append]

theorem docdict_emits {sd cd : ℚ → ℚ} {d : DocDict} {st : PackState}
    (hE : ∀ p ∈ d.body.getD [], entryOK sd cd p = true)
    (hbg : ∀ s : String, d.background = some s →
      ∃ v, parseColorStr s = Except.ok v ∧ okU32 v = true)
    (h0 : 0 ≤ st.layer)
    (hb : st.layer + (countRec (d.body.getD []) : Int) < 4294967296)
    (hinv : StInv st) :
    ∃ st' recs, procDocDict sd cd st d = Except.ok st' ∧ Emits st st' recs ∧
      recs.length = countRec (d.body.getD []) ∧ StInv st' := by
  obtain ⟨body, bg, fl⟩ := d
  obtain ⟨st1, recs, hfold, hem, hlen, hbg1, hfl1⟩ :=
    foldPrims_emits (body.getD []) st hE h0 hb
  have hinv1 : StInv st1 := by
    constructor
    · rw [hbg1]; exact hinv.1
    · rw [hfl1]; exact hinv.2
  have hflagsOK : ∀ st2 : PackState, StInv st2 →
      okU32 (match fl with
        | some v => applyFlags st2.flags v
        | none => st2.flags) = true := by
    intro st2 h2
    cases fl with
    | none => exact h2.2
    | some v =>
      rw [okU32_iff]
      exact applyFlags_bound v (okU32_iff.mp h2.2)
  cases body with
  | none =>
    have hst1 : st1 = st := by
      rw [show (Option.getD (none : Option (List Prim)) []) = [] from rfl,
        List.foldlM_nil] at hfold
      cases hfold
      rfl
    subst hst1
    cases bg with
    | none =>
      refine ⟨(match fl with
          | some v => { st1 with flags := applyFlags st1.flags v }
          | none => st1), recs, ?_, ?_, hlen, ?_⟩
      · simp only [procDocDict]
        rw [except_pure, except_bind_ok]
        rw [except_pure, except_bind_ok, except_pure]
        cases fl <;> rfl
      · exact emits_congr hem (by cases fl <;> rfl) (by cases fl <;> rfl)
      · constructor
        · cases fl <;> exact hinv1.1
        · cases fl <;> exact hflagsOK st1 hinv1
    | some s =>
      obtain ⟨v, hv, hvok⟩ := hbg s rfl
      refine ⟨(match fl with
          | some fv => { { st1 with bg_color := v } with
              flags := applyFlags { st1 with bg_color := v }.flags fv }
          | none => { st1 with bg_color := v }), recs, ?_, ?_, hlen, ?_⟩
      · simp only [procDocDict]
        rw [except_pure, except_bind_ok]
        rw [hv, except_bind_ok, except_pure, except_bind_ok, except_pure]
        cases fl <;> rfl
      · exact emits_congr hem (by cases fl <;> rfl) (by cases fl <;> rfl)
      · constructor
        · cases fl <;> exact hvok
        · cases fl with
          | none => exact hinv1.2
          | some fv =>
            rw [okU32_iff]
            exact applyFlags_bound fv (okU32_iff.mp hinv1.2)
  | some ps =>
    have hfold' : ps.foldlM (procPrimStep sd cd) st = Except.ok st1 := by
      rw [show (Option.getD (some ps) ([] : List Prim)) = ps from rfl] at hfold
      exact hfold
    cases bg with
    | none =>
      refine ⟨(match fl with
          | some v => { st1 with flags := applyFlags st1.flags v }
          | none => st1), recs, ?_, ?_, hlen, ?_⟩
      · simp only [procDocDict]
        rw [hfold', except_bind_ok]
        rw [except_pure, except_bind_ok, except_pure]
        cases fl <;> rfl
      · exact emits_congr hem (by cases fl <;> rfl) (by cases fl <;> rfl)
      · constructor
        · cases fl <;> exact hinv1.1
        · cases fl <;> exact hflagsOK st1 hinv1
    | some s =>
      obtain ⟨v, hv, hvok⟩ := hbg s rfl
      refine ⟨(match fl with
          | some fv => { { st1 with bg_color := v } with
              flags := applyFlags { st1 with bg_color := v }.flags fv }
          | none => { st1 with bg_color := v }), recs, ?_, ?_, hlen, ?_⟩
      · simp only [procDocDict]
        rw [hfold', except_bind_ok]
        rw [hv, except_bind_ok, except_pure, except_bind_ok, except_pure]
        cases fl <;> rfl
      · exact emits_congr hem (by cases fl <;> rfl) (by cases fl <;> rfl)
      · constructor
        · cases fl <;> exact hvok
        · cases fl with
          | none => exact hinv1.2
          | some fv =>
            rw [okU32_iff]
            exact applyFlags_bound fv (okU32_iff.mp hinv1.2)

theorem doc_emits {sd cd : ℚ → ℚ} {doc : YDoc} {st : PackState}
    (hE : ∀ p ∈ entriesOfDoc doc, entryOK sd cd p = true)
    (hbg : ∀ d : DocDict, doc = YDoc.dict d → ∀ s, d.background = some s →
      ∃ v, parseColorStr s = Except.ok v ∧ okU32 v = true)
    (h0 : 0 ≤ st.layer)
    (hb : st.layer + (countRec (entriesOfDoc doc) : Int) < 4294967296)
    (hinv : StInv st) :
    ∃ st' recs, procDoc sd cd st doc = Except.ok st' ∧ Emits st st' recs ∧
      recs.length = countRec (entriesOfDoc doc) ∧ StInv st' := by
  cases doc with
  | scalar => exact ⟨st, [], rfl, emits_nil st, rfl, hinv⟩
  | list its =>
    obtain ⟨st', recs, h1, h2, h3, hbg', hfl'⟩ := foldItems_emits its st hE h0 hb
    exact ⟨st', recs, h1, h2, h3,
      ⟨by rw [hbg']; exact hinv.1, by rw [hfl']; exact hinv.2⟩⟩
  | dict d => exact docdict_emits hE (fun s hs => hbg d rfl s hs) h0 hb hinv

theorem docs_emits {sd cd : ℚ → ℚ} :
    ∀ docs : List YDoc, ∀ st : PackState,
      (∀ p ∈ entriesOf docs, entryOK sd cd p = true) →
      (∀ s ∈ backgroundsOf docs, ∃ v, parseColorStr s = Except.ok v ∧ okU32 v = true) →
      0 ≤ st.layer →
      st.layer + (countRec (entriesOf docs) : Int) < 4294967296 →
      StInv st →
      ∃ st' recs, docs.foldlM (procDoc sd cd) st = Except.ok st' ∧
        Emits st st' recs ∧ recs.length = countRec (entriesOf docs) ∧ StInv st' := by
  intro docs
  induction docs with
  | nil =>
    intro st hE hbg h0 hb hinv
    exact ⟨st, [], by simp [except_pure], emits_nil st, rfl, hinv⟩
  | cons doc docs ih =>
    intro st hE hbg h0 hb hinv
    have hsplit : entriesOf (doc :: docs) = entriesOfDoc doc ++ entriesOf docs := by
      simp [entriesOf, List.flatMap_cons]
    rw [hsplit, countRec_append] at hb
    have hb1 : st.layer + (countRec (entriesOfDoc doc) : Int) < 4294967296 := by
      have : (0 : Int) ≤ (countRec (entriesOf docs) : Int) := Int.ofNat_nonneg _
      push_cast at hb ⊢
      omega
    have hbgdoc : ∀ d : DocDict, doc = YDoc.dict d → ∀ s, d.background = some s →
        ∃ v, parseColorStr s = Except.ok v ∧ okU32 v = true := by
      intro d hd s hsome
      refine hbg s ?_
      subst hd
      simp [backgroundsOf, List.flatMap_cons, hsome]
    obtain ⟨st1, r1, hstep, hem1, hr1, hinv1⟩ :=
      doc_emits (fun p hp => hE p (by rw [hsplit]; exact List.mem_append_left _ hp))
        hbgdoc h0 hb1 hinv
    have h01 : 0 ≤ st1.layer := by
      have hl1 : st1.layer = st.layer + (r1.length : Int) := hem1.2.1
      have : (0 : Int) ≤ (r1.length : Int) := Int.ofNat_nonneg _
      omega
    have hb2 : st1.layer + (countRec (entriesOf docs) : Int) < 4294967296 := by
      have hl1 : st1.layer = st.layer + (r1.length : Int) := hem1.2.1
      rw [hl1, hr1]
      push_cast at hb ⊢
      omega
    have hbg2 : ∀ s ∈ backgroundsOf docs,
        ∃ v, parseColorStr s = Except.ok v ∧ okU32 v = true := by
      intro s hs
      refine hbg s ?_
      simp [backgroundsOf, List.flatMap_cons]
      right
      simpa [backgroundsOf] using hs
    obtain ⟨st', recs, hfold, hem2, hr2, hinv'⟩ := ih st1
      (fun q hq => hE q (by rw [hsplit]; exact List.mem_append_right _ hq)) hbg2 h01 hb2 hinv1
    refine ⟨st', r1 ++ recs, ?_, emits_trans hem1 hem2, ?_, hinv'⟩
    · rw [List.foldlM_cons, hstep, except_bind_ok]
      exact hfold
    · rw [List.length_append, hr1, hr2, hsplit, countRec_append]

/-- Claim C1: for a document stream of N recognized and M unrecognized
primitive entries (all processable, and with valid background literals
and N in `u32` range), packing succeeds, the header's primCount word is
exactly N (the recognized count — unrecognized entries produce no record
and consume no layer), and the `layer` words of the emitted records are
exactly 0, 1, ..., N-1 in document order, wherever the M unrecognized
entries appear. -/
theorem packer_layer_monotonic (sd cd : ℚ → ℚ) (docs : List YDoc)
    (hE : ∀ p ∈ entriesOf docs, entryOK sd cd p = true)
    (hbg : ∀ s ∈ backgroundsOf docs, ∃ v, parseColorStr s = Except.ok v ∧ okU32 v = true)
    (hN : (countRec (entriesOf docs) : Int) < 4294967296) :
    ∃ st : PackState,
      docs.foldlM (procDoc sd cd) initPackState = Except.ok st ∧
      parse_yaml_to_binary sd cd docs =
        Except.ok ([Word.u 1, Word.u (countRec (entriesOf docs) : Int),
          Word.u st.bg_color, Word.u st.flags] ++ st.primitives.flatten,
          st.bg_color, st.flags) ∧
      st.primitives.length = countRec (entriesOf docs) ∧
      st.primitives.map (fun r => wordU r 1) =
        (List.range (countRec (entriesOf docs))).map (fun i => some (Int.ofNat i)) := by
  have hinv0 : StInv initPackState := by constructor <;> decide
  obtain ⟨st, recs, hfold, hem, hlen, hinv⟩ :=
    docs_emits docs initPackState hE hbg (by decide)
      (by rw [show initPackState.layer = 0 from rfl]; omega) hinv0
  have hprims : st.primitives = recs := by
    have := hem.1
    simpa [initPackState] using this
  have hlay : st.primitives.length = countRec (entriesOf docs) := by
    rw [hprims, hlen]
  have hmap : st.primitives.map (fun r => wordU r 1) =
      (List.range (countRec (entriesOf docs))).map (fun i => some (Int.ofNat i)) := by
    rw [hprims]
    have := hem.2.2
    rw [hlen] at this
    simpa [initPackState] using this
  have h1 : okU32 (st.primitives.length : Int) = true := by
    rw [okU32_iff]
    constructor
    · exact Int.ofNat_nonneg _
    · rw [hlay]; exact hN
  have hheader : packHeader (st.primitives.length : Int) st.bg_color st.flags =
      Except.ok [Word.u 1, Word.u (countRec (entriesOf docs) : Int),
        Word.u st.bg_color, Word.u st.flags] := by
    have hcond : (okU32 1 && okU32 (st.primitives.length : Int) &&
        okU32 st.bg_color && okU32 st.flags) = true := by
      rw [h1, hinv.1, hinv.2, show okU32 1 = true from by decide]
      rfl
    rw [packHeader, if_pos hcond, hlay]
  refine ⟨st, hfold, ?_, hlay, hmap⟩
  rw [parse_yaml_to_binary, hfold, except_bind_ok, hheader, except_bind_ok, except_pure]

theorem circle_default_eval0 :
    parse_primitive (fun _ => 0) (fun _ => 0) (Prim.circle none none none none none) 0 =
      Except.ok (some ([Word.u 0, Word.u 0, Word.f 0, Word.f 0, Word.f 10] ++
        List.replicate 9 (Word.f 0) ++
        [Word.u 4294967295, Word.u 0, Word.f 0, Word.f 0, Word.f (-10), Word.f (-10),
         Word.f 10, Word.f 10, Word.u 0, Word.u 0])) := by
  have hsetup : primSetup (fun _ => (0 : ℚ)) (fun _ => (0 : ℚ))
      (Prim.circle none none none none none) =
      Except.ok (some (SDF_TYPE_CIRCLE, [0, 0, 10], 4294967295, 0, 0, 0)) := by
    simp [primSetup, strokeOr0, except_bind_ok, except_pure,
      show parseColorStr "#ffffff" = Except.ok 4294967295 from by decide]
  have haabb : compute_aabb SDF_TYPE_CIRCLE [0, 0, 10] 0 0 = some (-10, -10, 10, 10) := by
    simp [compute_aabb, SDF_TYPE_CIRCLE]
  have hpack : pack_sdf_primitive SDF_TYPE_CIRCLE 0 [0, 0, 10] 4294967295 0 0 0
      (-10, -10, 10, 10) =
      Except.ok ([Word.u 0, Word.u 0, Word.f 0, Word.f 0, Word.f 10] ++
        List.replicate 9 (Word.f 0) ++
        [Word.u 4294967295, Word.u 0, Word.f 0, Word.f 0, Word.f (-10), Word.f (-10),
         Word.f 10, Word.f 10, Word.u 0, Word.u 0]) := by
    simp [pack_sdf_primitive, okU32, SDF_TYPE_CIRCLE, List.replicate]
  rw [parse_primitive, hsetup, except_bind_ok]
  dsimp only
  rw [haabb]
  simp [ofOpt, except_bind_ok, except_pure, hpack]

/-- Witness for C1 on a concrete document: one recognized circle entry
followed by one unrecognized entry. -/
theorem packer_layer_monotonic_witness :
    ((∀ p ∈ entriesOf [YDoc.list [Item.prim (Prim.circle none none none none none),
        Item.prim Prim.unknown]], entryOK (fun _ => 0) (fun _ => 0) p = true) ∧
     (∀ s ∈ backgroundsOf [YDoc.list [Item.prim (Prim.circle none none none none none),
        Item.prim Prim.unknown]],
        ∃ v, parseColorStr s = Except.ok v ∧ okU32 v = true) ∧
     ((countRec (entriesOf [YDoc.list [Item.prim (Prim.circle none none none none none),
        Item.prim Prim.unknown]]) : Int) < 4294967296)) ∧
    ∃ st : PackState,
      [YDoc.list [Item.prim (Prim.circle none none none none none),
        Item.prim Prim.unknown]].foldlM (procDoc (fun _ => 0) (fun _ => 0))
        initPackState = Except.ok st ∧
      parse_yaml_to_binary (fun _ => 0) (fun _ => 0)
        [YDoc.list [Item.prim (Prim.circle none none none none none),
          Item.prim Prim.unknown]] =
        Except.ok ([Word.u 1,
          Word.u (countRec (entriesOf [YDoc.list
            [Item.prim (Prim.circle none none none none none),
             Item.prim Prim.unknown]]) : Int),
          Word.u st.bg_color, Word.u st.flags] ++ st.primitives.flatten,
          st.bg_color, st.flags) ∧
      st.primitives.length = countRec (entriesOf [YDoc.list
        [Item.prim (Prim.circle none none none none none), Item.prim Prim.unknown]]) ∧
      st.primitives.map (fun r => wordU r 1) =
        (List.range (countRec (entriesOf [YDoc.list
          [Item.prim (Prim.circle none none none none none),
           Item.prim Prim.unknown]]))).map (fun i => some (Int.ofNat i)) := by
  have hE : ∀ p ∈ entriesOf [YDoc.list [Item.prim (Prim.circle none none none none none),
      Item.prim Prim.unknown]], entryOK (fun _ => 0) (fun _ => 0) p = true := by
    intro p hp
    simp [entriesOf, entriesOfDoc, entriesOfItem, List.flatMap_cons] at hp
    rcases hp with rfl | rfl
    · simp [entryOK, circle_default_eval0]
    · simp [entryOK, parse_unknown]
  have hbg : ∀ s ∈ backgroundsOf [YDoc.list [Item.prim (Prim.circle none none none none none),
      Item.prim Prim.unknown]], ∃ v, parseColorStr s = Except.ok v ∧ okU32 v = true := by
    intro s hs
    simp [backgroundsOf] at hs
  have hN : ((countRec (entriesOf [YDoc.list
      [Item.prim (Prim.circle none none none none none),
       Item.prim Prim.unknown]]) : Int) < 4294967296) := by decide
  exact ⟨⟨hE, hbg, hN⟩,
    packer_layer_monotonic (fun _ => 0) (fun _ => 0) _ hE hbg hN⟩
